import Mathlib

/-!
dotmatrix-daily-news: a verification development of `print.go`

The program fetches four JSON documents over HTTP, formats them into a text
report and pipes the report to the `lp` print command.  This file embeds the
program as pure Lean functions:

* a decoded JSON document is a `Value`; an unchecked Go type assertion or an
  out-of-range index is a run-time crash, modelled by `none`;
* the network is the function `Env.fetchData` from URLs to an optional
  decoded object (`fetchData` in the source returns `nil` on every failure);
* the two credentials, the two date stamps produced by `time.Now().Format`,
  the library routines `sort.Slice` and `fmt`'s `%.Nf` verb, and the order in
  which the Go run time walks a map are parameters of a run (`Env`);
* `main` returns the list of requests it issued together with the way the run
  ended: a logged diagnostic and early return, a crash, or a report handed to
  the print command.

JSON numbers are decoded by Go into `float64`; a decoded number is finite, and
is represented here by its exact rational value.
-/

namespace DailyNews

/-! ## Decoded JSON -/

/-- A decoded JSON value: what `json.Unmarshal` stores in an `interface{}`. -/
inductive Value where
  | null : Value
  | bool : Bool → Value
  | num : Rat → Value
  | str : String → Value
  | arr : List Value → Value
  | obj : List (String × Value) → Value

/-- A decoded JSON object, `map[string]interface{}` in the source. -/
abbrev Object := List (String × Value)

/-- The map index expression `m[k]`: the bound value, or the nil interface
when the key is missing. -/
def index (m : Object) (k : String) : Value :=
  (m.lookup k).getD Value.null

/-- The type assertion `v.(map[string]interface{})`. -/
def Value.asMap : Value → Option Object
  | Value.obj m => some m
  | _ => none

/-- The type assertion `v.([]interface{})`. -/
def Value.asSlice : Value → Option (List Value)
  | Value.arr l => some l
  | _ => none

/-- The type assertion `v.(float64)`. -/
def Value.asFloat : Value → Option Rat
  | Value.num x => some x
  | _ => none

/-- The type assertion `v.(string)`. -/
def Value.asString : Value → Option String
  | Value.str s => some s
  | _ => none

/-- The conversion `int(x)` of a `float64` to the 64-bit `int`: the fraction
is discarded (truncation towards zero).  For a value outside the range of `int`
Go leaves the result to the implementation; the compiled program (amd64)
yields the smallest `int`, -9223372036854775808. -/
def floatToInt (x : Rat) : Int :=
  let truncated := Int.tdiv x.num (x.den : Int)
  if -9223372036854775808 ≤ truncated ∧ truncated < 9223372036854775808 then truncated
  else -9223372036854775808

/-- Run a fallible step over a list from left to right; the first crash
crashes the whole loop. -/
def traverse {α β : Type} (f : α → Option β) : List α → Option (List β)
  | [] => some []
  | a :: rest =>
    match f a with
    | none => none
    | some b =>
      match traverse f rest with
      | none => none
      | some bs => some (b :: bs)

/-! ## Constants -/

/-- The table of WMO weather codes and their labels. -/
def WMOCODES : List (Int × String) :=
  [ (0, "Clear"),
    (1, "Mostly Clear"),
    (2, "Partly Cloudy"),
    (3, "Overcast"),
    (45, "Foggy"),
    (48, "Foggy"),
    (51, "Light Drizzle"),
    (53, "Drizzle"),
    (55, "Heavy Drizzle"),
    (56, "Frz Drizzle"),
    (57, "Frz Drizzle"),
    (61, "Slight Rain"),
    (63, "Rain"),
    (65, "Heavy Rain"),
    (66, "Light Frz Rain"),
    (67, "Heavy Frz Rain"),
    (71, "Light Snow"),
    (73, "Snow"),
    (75, "Heavy Snow"),
    (77, "Snow"),
    (80, "Light Showers"),
    (81, "Showers"),
    (82, "Heavy Showers"),
    (85, "Snow Showers"),
    (86, "Heavy Snow Showers"),
    (95, "Thunderstorms"),
    (96, "Hail Storms"),
    (99, "Heavy Hail Storms") ]

/-- The map index expression `WMOCODES[code]`: the empty string for a code
that is not a key of the table. -/
def wmoLabel (code : Int) : String :=
  (WMOCODES.lookup code).getD ""

def STOCKS : List String := ["DIA", "SPY"]

def STOCKSURL : String := "https://api.twelvedata.com/quote"

def NEWSURL : String := "https://api.nytimes.com/svc/mostpopular/v2/viewed/1.json"

def MAXNEWS : Nat := 3

def SUBREDDITS : List String :=
  ["science", "upliftingnews", "technology", "fauxmoi", "todayilearned"]

/-- The forecast URL built in `main`: the format string with `LOCATION`
(28.5383, -81.3792) rendered by the two `%f` verbs. -/
def weatherUrl : String :=
  "https://api.open-meteo.com/v1/forecast?latitude=28.538300&longitude=-81.379200&daily=weather_code,temperature_2m_max,temperature_2m_min,sunrise,sunset,daylight_duration,wind_speed_10m_max&temperature_unit=fahrenheit&wind_speed_unit=mph&precipitation_unit=inch&timezone=America/New_York&forecast_days=1"

/-- The quote URL of one ticker: `"%s?symbol=%s&apikey=%s"`. -/
def stockUrl (key stock : String) : String :=
  STOCKSURL ++ "?symbol=" ++ stock ++ "&apikey=" ++ key

/-- The headlines URL: `"%s?api-key=%s"`. -/
def newsUrl (key : String) : String :=
  NEWSURL ++ "?api-key=" ++ key

/-- The listing URL of one community: `"https://reddit.com/r/%s.json"`. -/
def redditUrl (subreddit : String) : String :=
  "https://reddit.com/r/" ++ subreddit ++ ".json"

/-! ## The environment of a run -/

/-- A Go map from strings, held as its list of entries (distinct keys). -/
abbrev GoMap (V : Type) := List (String × V)

/-- The assignment `m[k] = v`. -/
def mapInsert {V : Type} (m : GoMap V) (k : String) (v : V) : GoMap V :=
  if m.any (fun e => e.1 == k) then
    m.map (fun e => if e.1 == k then (k, v) else e)
  else
    m ++ [(k, v)]

/-- Everything a run of `main` depends on besides the program text. -/
structure Env where
  /-- The helper `fetchData`: the decoded body, or `none` for its `nil`. -/
  fetchData : String → Option Object
  /-- The environment variable `STOCKS_API_KEY`. -/
  STOCKSKEY : String
  /-- The environment variable `NEWS_API_KEY`. -/
  NEWSKEY : String
  /-- The text of `time.Now().Format("Mon Jan 2 2006")` in `printHeader`. -/
  headerDate : String
  /-- The text of `time.Now().Format("Mon Jan 2 2006")` in `printFooter`. -/
  footerDate : String
  /-- The library routine `sort.Slice`, applied to a slice and a comparison. -/
  sortSlice : {α : Type} → (α → α → Bool) → List α → List α
  /-- The verb `%.Nf` of `fmt.Sprintf`: precision, then the number. -/
  fmtFloat : Nat → Rat → String
  /-- The order in which `range stockData` visits the entries in `printMarkets`. -/
  rangeMarkets : {α : Type} → List α → List α
  /-- The order in which `range redditData` visits the entries in `printReddit`. -/
  rangeReddit : {α : Type} → List α → List α

/-- The requirement `sort.Slice` places on its comparison: on the elements of
the slice it is a strict weak ordering. -/
structure StrictWeakOrderOn {α : Type} (less : α → α → Bool) (l : List α) : Prop where
  asymm : ∀ a ∈ l, ∀ b ∈ l, less a b = true → less b a = false
  negTrans : ∀ a ∈ l, ∀ b ∈ l, ∀ c ∈ l,
    less a b = false → less b c = false → less a c = false

/-- The documented contract of `sort.Slice`: the slice is rearranged (nothing
added or lost) and ends up ordered by the comparison.  Nothing is promised
about the order of elements that compare equal. -/
def SortContract (sort : {α : Type} → (α → α → Bool) → List α → List α) : Prop :=
  ∀ {α : Type} (less : α → α → Bool) (l : List α),
    (sort less l).Perm l ∧
      (StrictWeakOrderOn less l → (sort less l).Pairwise (fun a b => less b a = false))

/-- A `range` over a map visits every entry exactly once, in an order the
language leaves unspecified. -/
def RangeContract (iter : {α : Type} → List α → List α) : Prop :=
  ∀ {α : Type} (l : List α), (iter l).Perm l

/-- Inner loop of an insertion sort: move `x` left past every element it is
less than; the prefix is given nearest neighbour first. -/
def sinkLeft {α : Type} (less : α → α → Bool) (x : α) : List α → List α
  | [] => [x]
  | y :: rest => if less x y then y :: sinkLeft less x rest else x :: y :: rest

/-- Insertion sort, an order-preserving implementation of the contract. -/
def insertionSort {α : Type} (less : α → α → Bool) (l : List α) : List α :=
  (l.foldl (fun sortedRev x => sinkLeft less x sortedRev) []).reverse

/-- Insertion sort started from the far end of the slice: it meets the
contract as well, and leaves equal elements in reversed order. -/
def reversingSort {α : Type} (less : α → α → Bool) (l : List α) : List α :=
  insertionSort less l.reverse

/-! ## Reddit: the post retained for one community -/

/-- The chain `child.(map)["data"].(map)["ups"].(float64)` used by the
comparison passed to `sort.Slice` and by `printReddit`. -/
def upsOf (child : Value) : Option Rat :=
  match child.asMap with
  | none => none
  | some m =>
    match (index m "data").asMap with
    | none => none
    | some d => (index d "ups").asFloat

/-- The chain `item.(map)["data"].(map)["title"].(string)`. -/
def titleOf (item : Value) : Option String :=
  match item.asMap with
  | none => none
  | some m =>
    match (index m "data").asMap with
    | none => none
    | some d => (index d "title").asString

/-- The expression `data["data"].(map)["children"].([]interface{})`. -/
def childrenOf (data : Object) : Option (List Value) :=
  match (index data "data").asMap with
  | none => none
  | some d => (index d "children").asSlice

/-- The comparison closure of line 111: `ups(children[i]) > ups(children[j])`.
It is only evaluated on posts whose `ups` chain succeeds (see `sortByUps`). -/
def upsGreater (a b : Value) : Bool :=
  match upsOf a, upsOf b with
  | some x, some y => decide (x > y)
  | _, _ => false

/-- The call `sort.Slice(children, ...)`.  A slice of fewer than two posts is
never compared; in a longer one every post is compared at least once, so a
post without a numeric `ups` crashes the comparison closure. -/
def sortByUps (sort : {α : Type} → (α → α → Bool) → List α → List α)
    (children : List Value) : Option (List Value) :=
  if children.length < 2 then some children
  else if children.all (fun c => (upsOf c).isSome) then some (sort upsGreater children)
  else none

/-- Lines 110 to 114 for one fetched listing: the value stored in
`redditData[subreddit]`, or `none` when the run crashes there. -/
def topPost (sort : {α : Type} → (α → α → Bool) → List α → List α)
    (data : Object) : Option Value :=
  match childrenOf data with
  | none => none
  | some children =>
    match sortByUps sort children with
    | none => none
    | some sorted => sorted.head?

/-- Reference definition, following the words of the specification: among the
posts that share the maximum upvote count, the one appearing first in the
original response order. -/
def firstMaxPost : List Value → Option Value
  | [] => none
  | c :: rest =>
    match firstMaxPost rest with
    | none => some c
    | some best => if upsGreater best c then some best else some c

/-! ## Formatters -/

/-- The library routine `strings.Repeat`. -/
def stringsRepeat (s : String) : Nat → String
  | 0 => ""
  | count + 1 => s ++ stringsRepeat s count

/-- The text a buffer holds after the given pieces were written to it in
turn. -/
def joinLines : List String → String
  | [] => ""
  | line :: rest => line ++ joinLines rest

/-- The banner line shared by header and footer. -/
def bannerLine (date : String) : String :=
  "SCHMELYUN TRIBUNE" ++ stringsRepeat " " 20 ++ date ++ "\n"

/-- The full-width rule of dashes. -/
def ruleLine : String :=
  stringsRepeat "-" 78 ++ "\n"

def printHeader (date : String) : String :=
  bannerLine date ++ ruleLine

def printFooter (date : String) : String :=
  ruleLine ++ bannerLine date

/-- The chain `v.([]interface{})[0].(float64)` of `printWeather`. -/
def firstFloat (v : Value) : Option Rat :=
  match v.asSlice with
  | none => none
  | some items =>
    match items.head? with
    | none => none
    | some x => x.asFloat

/-- The local `weatherCode` of `printWeather`. -/
def weatherCodeOf (weatherData : Object) : Option Int :=
  match (index weatherData "daily").asMap with
  | none => none
  | some daily => (firstFloat (index daily "weather_code")).map floatToInt

def printWeather (fmtFloat : Nat → Rat → String) (weatherData : Object) : Option String :=
  match (index weatherData "daily").asMap with
  | none => none
  | some daily =>
    match firstFloat (index daily "weather_code"),
        firstFloat (index daily "temperature_2m_max"),
        firstFloat (index daily "temperature_2m_min") with
    | some code, some high, some low =>
      some ("WEATHER\n" ++
        ("    " ++ wmoLabel (floatToInt code) ++ " - High: " ++ fmtFloat 1 high ++
          "°F, Low: " ++ fmtFloat 1 low ++ "°F\n\n"))
    | _, _, _ => none

/-- One pass of the loop body of `printMarkets`. -/
def marketLine (fmtFloat : Nat → Rat → String) (entry : String × Object) : Option String :=
  match (index entry.2 "close").asFloat, (index entry.2 "percent_change").asFloat with
  | some closePrice, some percentChange =>
    some ("  " ++ entry.1 ++ ": " ++ fmtFloat 2 closePrice ++ " (" ++
      fmtFloat 2 percentChange ++ "%)\n\n")
  | _, _ => none

def printMarkets (fmtFloat : Nat → Rat → String) (iter : {α : Type} → List α → List α)
    (stockData : GoMap Object) : Option String :=
  match traverse (marketLine fmtFloat) (iter stockData) with
  | none => none
  | some lines => some ("MARKETS\n\n" ++ joinLines lines)

/-- The chain `article.(map)["title"].(string)` of `printNews`. -/
def articleTitle (article : Value) : Option String :=
  match article.asMap with
  | none => none
  | some m => (index m "title").asString

/-- The loop of `printNews` from index `i` on: it stops at the end of the
slice or at the first index that reaches `MAXNEWS`. -/
def newsLoop : Nat → List Value → Option String
  | _, [] => some ""
  | i, article :: rest =>
    if i ≥ MAXNEWS then some ""
    else
      match articleTitle article with
      | none => none
      | some title =>
        match newsLoop (i + 1) rest with
        | none => none
        | some more => some ("  " ++ title ++ "\n\n" ++ more)

def printNews (newsData : Object) : Option String :=
  match (index newsData "results").asSlice with
  | none => none
  | some results =>
    match newsLoop 0 results with
    | none => none
    | some lines => some ("HEADLINES\n\n" ++ lines)

/-- One pass of the loop body of `printReddit`. -/
def redditLine (entry : String × Value) : Option String :=
  match titleOf entry.2, upsOf entry.2 with
  | some title, some ups =>
    some ("  r/" ++ entry.1 ++ " - " ++ title ++ " (Upvotes: " ++
      toString (floatToInt ups) ++ ")\n\n")
  | _, _ => none

def printReddit (iter : {α : Type} → List α → List α) (redditData : GoMap Value) :
    Option String :=
  match traverse redditLine (iter redditData) with
  | none => none
  | some lines => some ("REDDIT\n\n" ++ joinLines lines)

/-! ## The run -/

/-- The call sites of `fetchData` in `main`. -/
inductive Req where
  | weather : Req
  | stock : String → Req
  | news : Req
  | reddit : String → Req
  deriving DecidableEq

/-- The URL a call site passes to `fetchData`. -/
def Req.url (env : Env) : Req → String
  | Req.weather => weatherUrl
  | Req.stock symbol => stockUrl env.STOCKSKEY symbol
  | Req.news => newsUrl env.NEWSKEY
  | Req.reddit subreddit => redditUrl subreddit

/-- The two ways a run ends without reaching the print command. -/
inductive Stop where
  /-- A diagnostic is written to the console and `main` returns. -/
  | aborted : String → Stop
  /-- A run-time crash: failed type assertion or index out of range. -/
  | crashed : Stop
  deriving DecidableEq

/-- How a run ends. -/
inductive Outcome where
  | stopped : Stop → Outcome
  /-- The buffer with this text is handed to `lp` as its standard input. -/
  | printed : String → Outcome
  deriving DecidableEq

/-- A run: the requests issued, in order, and the way it ended. -/
structure Run where
  fetched : List Req
  outcome : Outcome
  deriving DecidableEq

/-- The loop over `STOCKS` (lines 79 to 85), from the tickers still to do and
the map filled so far. -/
def stocksLoop (fetchData : String → Option Object) (key : String) :
    List String → GoMap Object → List Req × Except Stop (GoMap Object)
  | [], stockData => ([], Except.ok stockData)
  | stock :: rest, stockData =>
    match fetchData (stockUrl key stock) with
    | none =>
      ([Req.stock stock],
        Except.error (Stop.aborted ("Unable to retrieve stock data for " ++ stock ++ "\n")))
    | some data =>
      let next := stocksLoop fetchData key rest (mapInsert stockData stock data)
      (Req.stock stock :: next.1, next.2)

/-- Lines 76 to 86: `stockData` after the stocks stage. -/
def stocksStage (env : Env) : List Req × Except Stop (GoMap Object) :=
  if env.STOCKSKEY ≠ "" then stocksLoop env.fetchData env.STOCKSKEY STOCKS [] else ([], Except.ok [])

/-- Lines 89 to 98: `newsData` after the news stage (`none` is the nil map). -/
def newsStage (env : Env) : List Req × Except Stop (Option Object) :=
  if env.NEWSKEY ≠ "" then
    match env.fetchData (newsUrl env.NEWSKEY) with
    | none => ([Req.news], Except.error (Stop.aborted "Unable to retrieve news data\n"))
    | some newsData =>
      match (index newsData "results").asSlice with
      | none => ([Req.news], Except.error Stop.crashed)
      | some results =>
        if results.length = 0 then
          ([Req.news], Except.error (Stop.aborted "Unable to retrieve news data\n"))
        else ([Req.news], Except.ok (some newsData))
  else ([], Except.ok none)

/-- The loop over `SUBREDDITS` (lines 103 to 115). -/
def redditLoop (fetchData : String → Option Object)
    (sort : {α : Type} → (α → α → Bool) → List α → List α) :
    List String → GoMap Value → List Req × Except Stop (GoMap Value)
  | [], redditData => ([], Except.ok redditData)
  | subreddit :: rest, redditData =>
    match fetchData (redditUrl subreddit) with
    | none =>
      ([Req.reddit subreddit],
        Except.error (Stop.aborted ("Unable to fetch reddit data for r/" ++ subreddit ++ "\n")))
    | some data =>
      match topPost sort data with
      | none => ([Req.reddit subreddit], Except.error Stop.crashed)
      | some top =>
        let next := redditLoop fetchData sort rest (mapInsert redditData subreddit top)
        (Req.reddit subreddit :: next.1, next.2)

/-- Lines 102 to 115: `redditData` after the reddit stage. -/
def redditStage (env : Env) : List Req × Except Stop (GoMap Value) :=
  redditLoop env.fetchData env.sortSlice SUBREDDITS []

/-- The built-in `len` of the map `newsData`. -/
def newsLen : Option Object → Nat
  | none => 0
  | some m => m.length

/-- The markets part written at lines 121 to 123. -/
def marketsPart (env : Env) (stockData : GoMap Object) : Option String :=
  if stockData.length > 0 then
    (printMarkets env.fmtFloat env.rangeMarkets stockData).map (fun block => block ++ "\n")
  else some ""

/-- The headlines part written at lines 124 to 126. -/
def newsPart (newsData : Option Object) : Option String :=
  match newsData with
  | none => some ""
  | some m =>
    if newsLen (some m) > 0 then (printNews m).map (fun block => block ++ "\n") else some ""

/-- Lines 119 to 128: the text written to the buffer. -/
def assemble (env : Env) (weatherData : Object) (stockData : GoMap Object)
    (newsData : Option Object) (redditData : GoMap Value) : Option String :=
  match printWeather env.fmtFloat weatherData, marketsPart env stockData, newsPart newsData,
      printReddit env.rangeReddit redditData with
  | some weather, some markets, some news, some reddit =>
    some (printHeader env.headerDate ++ "\n" ++ (weather ++ "\n") ++ markets ++ news ++
      (reddit ++ "\n") ++ printFooter env.footerDate)
  | _, _, _, _ => none

/-- The function `main`. -/
def main (env : Env) : Run :=
  match env.fetchData weatherUrl with
  | none => ⟨[Req.weather], Outcome.stopped (Stop.aborted "Unable to retrieve weather data\n")⟩
  | some weatherData =>
    match stocksStage env with
    | (t1, Except.error stop) => ⟨Req.weather :: t1, Outcome.stopped stop⟩
    | (t1, Except.ok stockData) =>
      match newsStage env with
      | (t2, Except.error stop) => ⟨Req.weather :: (t1 ++ t2), Outcome.stopped stop⟩
      | (t2, Except.ok newsData) =>
        match redditStage env with
        | (t3, Except.error stop) => ⟨Req.weather :: (t1 ++ t2 ++ t3), Outcome.stopped stop⟩
        | (t3, Except.ok redditData) =>
          match assemble env weatherData stockData newsData redditData with
          | none => ⟨Req.weather :: (t1 ++ t2 ++ t3), Outcome.stopped Stop.crashed⟩
          | some report => ⟨Req.weather :: (t1 ++ t2 ++ t3), Outcome.printed report⟩

/-! ## Sample data -/

/-- A post with a title and an upvote count, shaped like a listing child. -/
def mkPost (title : String) (ups : Rat) : Value :=
  Value.obj [("kind", Value.str "t3"),
    ("data", Value.obj [("title", Value.str title), ("ups", Value.num ups)])]

/-- A listing with the given posts. -/
def mkListing (posts : List Value) : Object :=
  [("kind", Value.str "Listing"), ("data", Value.obj [("children", Value.arr posts)])]

/-- A forecast with one day. -/
def sampleWeather : Object :=
  [("daily", Value.obj [("weather_code", Value.arr [Value.num 3]),
    ("temperature_2m_max", Value.arr [Value.num 88]),
    ("temperature_2m_min", Value.arr [Value.num 71])])]

/-- A most-viewed result with four articles. -/
def sampleNews : Object :=
  [("status", Value.str "OK"),
    ("results", Value.arr [Value.obj [("title", Value.str "A")],
      Value.obj [("title", Value.str "B")], Value.obj [("title", Value.str "C")],
      Value.obj [("title", Value.str "D")]])]

/-- A quote. -/
def sampleQuote (closePrice : Rat) : Object :=
  [("close", Value.num closePrice), ("percent_change", Value.num 1)]

/-- A stand-in for the verb `%.Nf` on whole numbers. -/
def sampleFmt (precision : Nat) (x : Rat) : String :=
  toString (floatToInt x) ++ "." ++ stringsRepeat "0" precision

/-- A network in which every source answers. -/
def sampleFetch (url : String) : Option Object :=
  if url = weatherUrl then some sampleWeather
  else if url = stockUrl "k" "DIA" then some (sampleQuote 400)
  else if url = stockUrl "k" "SPY" then some (sampleQuote 500)
  else if url = newsUrl "n" then some sampleNews
  else some (mkListing [mkPost "first" 5, mkPost "second" 9, mkPost "third" 9])

/-- A run environment with both credentials set, an order-preserving sort and
maps walked in insertion order. -/
def sampleEnv : Env :=
  { fetchData := sampleFetch
    STOCKSKEY := "k"
    NEWSKEY := "n"
    headerDate := "Mon Nov 2 2026"
    footerDate := "Mon Nov 2 2026"
    sortSlice := fun less l => insertionSort less l
    fmtFloat := sampleFmt
    rangeMarkets := fun l => l
    rangeReddit := fun l => l }

/-- Thirteen posts of which the fourth and the seventh share the highest
upvote count. -/
def tiedPosts : List Value :=
  [mkPost "a" 1, mkPost "b" 1, mkPost "c" 1, mkPost "d" 10, mkPost "e" 1, mkPost "f" 1,
    mkPost "g" 10, mkPost "h" 1, mkPost "i" 1, mkPost "j" 1, mkPost "k" 1, mkPost "l" 1,
    mkPost "m" 1]

/-- Three posts with distinct upvote counts. -/
def rankedPosts : List Value :=
  [mkPost "low" 2, mkPost "high" 7, mkPost "mid" 5]

/-- A network in which the listing of r/technology has no posts. -/
def emptyListingFetch (url : String) : Option Object :=
  if url = redditUrl "technology" then some (mkListing []) else sampleFetch url

/-- The sample environment without a stocks credential. -/
def noStocksEnv : Env :=
  { sampleEnv with STOCKSKEY := "" }

/-- A network in which the quote of SPY cannot be fetched. -/
def spyDownFetch (url : String) : Option Object :=
  if url = stockUrl "k" "SPY" then none else sampleFetch url

/-- The sample environment on the network without the SPY quote. -/
def spyDownEnv : Env :=
  { sampleEnv with fetchData := spyDownFetch }

/-- The report of the sample environment. -/
def sampleReport : String :=
  "SCHMELYUN TRIBUNE                    Mon Nov 2 2026\n------------------------------------------------------------------------------\n\nWEATHER\n    Overcast - High: 88.0°F, Low: 71.0°F\n\n\nMARKETS\n\n  DIA: 400.00 (1.00%)\n\n  SPY: 500.00 (1.00%)\n\n\nHEADLINES\n\n  A\n\n  B\n\n  C\n\n\nREDDIT\n\n  r/science - second (Upvotes: 9)\n\n  r/upliftingnews - second (Upvotes: 9)\n\n  r/technology - second (Upvotes: 9)\n\n  r/fauxmoi - second (Upvotes: 9)\n\n  r/todayilearned - second (Upvotes: 9)\n\n\n------------------------------------------------------------------------------\nSCHMELYUN TRIBUNE                    Mon Nov 2 2026\n"

/-- The number of newline characters at the end of a text: one for the end
of its last line and one more for every empty line after it. -/
def trailingNewlines (s : String) : Nat :=
  (s.data.reverse.takeWhile (fun c => c == '\n')).length

/-- The lines of a text, cut at the newline characters; the second argument
collects the current line back to front. -/
def splitLines : List Char → List Char → List String
  | [], current => [String.mk current.reverse]
  | c :: rest, current =>
    if c = '\n' then String.mk current.reverse :: splitLines rest []
    else splitLines rest (c :: current)

/-- The lines of a text. -/
def linesOf (s : String) : List String :=
  splitLines s.data []

/-- The text ends with a character other than a newline followed by exactly
`k` newlines. -/
def EndsWith (s : String) (k : Nat) : Prop :=
  ∃ (before : List Char) (c : Char), c ≠ '\n' ∧ s.data = before ++ c :: List.replicate k '\n'

/-- The text ends with at least `k` newlines. -/
def EndsWithAtLeast (s : String) (k : Nat) : Prop :=
  ∃ before : List Char, s.data = before ++ List.replicate k '\n'

/-- The text begins with a character other than a newline: its first line is
not empty. -/
def StartsLine (s : String) : Prop :=
  ∃ (c : Char) (rest : List Char), c ≠ '\n' ∧ s.data = c :: rest

/-- In the text `before ++ after` exactly `k` empty lines stand between the
last non-empty line of `before` and the first line of `after`: `before` ends
with a character other than a newline, the newline that ends its line and `k`
more newlines, and `after` begins with a character other than a newline. -/
def BlankLinesBetween (k : Nat) (before after : String) : Prop :=
  EndsWith before (k + 1) ∧ StartsLine after

/-- The same environment with the maps walked in other orders. -/
def Env.withRange (env : Env) (iterMarkets iterReddit : {α : Type} → List α → List α) : Env :=
  { env with rangeMarkets := iterMarkets, rangeReddit := iterReddit }

/-- The sample environment with `stockData` walked back to front: SPY is
visited before DIA. -/
def reversedEnv : Env :=
  sampleEnv.withRange (fun l => l.reverse) (fun l => l)

/-- The report of the sample environment when `stockData` is walked back to
front. -/
def reversedReport : String :=
  "SCHMELYUN TRIBUNE                    Mon Nov 2 2026\n------------------------------------------------------------------------------\n\nWEATHER\n    Overcast - High: 88.0°F, Low: 71.0°F\n\n\nMARKETS\n\n  SPY: 500.00 (1.00%)\n\n  DIA: 400.00 (1.00%)\n\n\nHEADLINES\n\n  A\n\n  B\n\n  C\n\n\nREDDIT\n\n  r/science - second (Upvotes: 9)\n\n  r/upliftingnews - second (Upvotes: 9)\n\n  r/technology - second (Upvotes: 9)\n\n  r/fauxmoi - second (Upvotes: 9)\n\n  r/todayilearned - second (Upvotes: 9)\n\n\n------------------------------------------------------------------------------\nSCHMELYUN TRIBUNE                    Mon Nov 2 2026\n"

/-! ## Sorting lemmas -/

theorem sinkLeft_perm {α : Type} (less : α → α → Bool) (x : α) (l : List α) :
    (sinkLeft less x l).Perm (x :: l) := by
  induction l with
  | nil => simp [sinkLeft]
  | cons y rest ih =>
    unfold sinkLeft
    split
    · exact ((List.Perm.cons y ih).trans (List.Perm.swap x y rest))
    · exact List.Perm.refl _

theorem sinkLeft_pairwise {α : Type} (less : α → α → Bool) (x : α) (l : List α)
    (hasymm : ∀ b ∈ l, less x b = true → less b x = false)
    (hneg : ∀ b ∈ l, ∀ c ∈ l, less x b = false → less b c = false → less x c = false)
    (hl : l.Pairwise (fun a b => less a b = false)) :
    (sinkLeft less x l).Pairwise (fun a b => less a b = false) := by
  induction l with
  | nil => simp [sinkLeft]
  | cons y rest ih =>
    have hy := List.pairwise_cons.mp hl
    unfold sinkLeft
    split
    · rename_i hxy
      refine List.pairwise_cons.mpr ⟨?_, ?_⟩
      · intro z hz
        have hz2 : z ∈ x :: rest := (sinkLeft_perm less x rest).subset hz
        rcases List.mem_cons.mp hz2 with rfl | hz3
        · exact hasymm y (List.mem_cons_self _ _) hxy
        · exact hy.1 z hz3
      · exact ih (fun b hb => hasymm b (List.mem_cons_of_mem _ hb))
          (fun b hb c hc => hneg b (List.mem_cons_of_mem _ hb) c (List.mem_cons_of_mem _ hc))
          hy.2
    · rename_i hxy
      have hxy2 : less x y = false := by simpa using hxy
      refine List.pairwise_cons.mpr ⟨?_, hl⟩
      intro z hz
      rcases List.mem_cons.mp hz with rfl | hz3
      · exact hxy2
      · exact hneg y (List.mem_cons_self _ _) z (List.mem_cons_of_mem _ hz3) hxy2 (hy.1 z hz3)

theorem foldl_sinkLeft_perm {α : Type} (less : α → α → Bool) (l acc : List α) :
    (l.foldl (fun sortedRev x => sinkLeft less x sortedRev) acc).Perm (l ++ acc) := by
  induction l generalizing acc with
  | nil => simp
  | cons x rest ih =>
    simp only [List.foldl_cons]
    refine (ih (sinkLeft less x acc)).trans ?_
    refine (List.Perm.append_left rest (sinkLeft_perm less x acc)).trans ?_
    exact (List.perm_middle : (rest ++ x :: acc).Perm (x :: (rest ++ acc)))

theorem foldl_sinkLeft_pairwise {α : Type} (less : α → α → Bool) (l acc : List α)
    (hord : StrictWeakOrderOn less (l ++ acc))
    (hacc : acc.Pairwise (fun a b => less a b = false)) :
    (l.foldl (fun sortedRev x => sinkLeft less x sortedRev) acc).Pairwise
      (fun a b => less a b = false) := by
  induction l generalizing acc with
  | nil => simpa using hacc
  | cons x rest ih =>
    simp only [List.foldl_cons]
    have hx : x ∈ (x :: rest) ++ acc := by simp
    have hsub : ∀ b ∈ acc, b ∈ (x :: rest) ++ acc := fun b hb => by simp [hb]
    apply ih
    · have hperm : (rest ++ sinkLeft less x acc).Perm ((x :: rest) ++ acc) := by
        refine (List.Perm.append_left rest (sinkLeft_perm less x acc)).trans ?_
        exact (List.perm_middle : (rest ++ x :: acc).Perm (x :: (rest ++ acc)))
      exact ⟨fun a ha b hb => hord.asymm a (hperm.subset ha) b (hperm.subset hb),
        fun a ha b hb c hc =>
          hord.negTrans a (hperm.subset ha) b (hperm.subset hb) c (hperm.subset hc)⟩
    · exact sinkLeft_pairwise less x acc (fun b hb => hord.asymm x hx b (hsub b hb))
        (fun b hb c hc => hord.negTrans x hx b (hsub b hb) c (hsub c hc)) hacc

theorem insertionSort_perm {α : Type} (less : α → α → Bool) (l : List α) :
    (insertionSort less l).Perm l := by
  unfold insertionSort
  refine (List.reverse_perm _).trans ?_
  simpa using foldl_sinkLeft_perm less l []

theorem insertionSort_sorted {α : Type} (less : α → α → Bool) (l : List α)
    (hord : StrictWeakOrderOn less l) :
    (insertionSort less l).Pairwise (fun a b => less b a = false) := by
  unfold insertionSort
  rw [List.pairwise_reverse]
  exact foldl_sinkLeft_pairwise less l [] (by simpa using hord) List.Pairwise.nil

/-- Insertion sort meets the contract of `sort.Slice`. -/
theorem insertionSort_contract : SortContract (fun less l => insertionSort less l) := by
  intro α less l
  exact ⟨insertionSort_perm less l, insertionSort_sorted less l⟩

/-- The reversing sort meets the contract of `sort.Slice` too. -/
theorem reversingSort_contract : SortContract (fun less l => reversingSort less l) := by
  intro α less l
  refine ⟨(insertionSort_perm less l.reverse).trans (List.reverse_perm l), ?_⟩
  intro hord
  exact insertionSort_sorted less l.reverse
    ⟨fun a ha b hb => hord.asymm a (List.mem_reverse.mp ha) b (List.mem_reverse.mp hb),
      fun a ha b hb c hc => hord.negTrans a (List.mem_reverse.mp ha) b (List.mem_reverse.mp hb)
        c (List.mem_reverse.mp hc)⟩

/-- On posts that all carry a numeric `ups`, the comparison of line 111 is a
strict weak ordering. -/
theorem upsGreater_order (children : List Value)
    (hups : ∀ c ∈ children, (upsOf c).isSome = true) :
    StrictWeakOrderOn upsGreater children := by
  have key : ∀ c ∈ children, ∃ u, upsOf c = some u := fun c hc =>
    Option.isSome_iff_exists.mp (hups c hc)
  constructor
  · intro a ha b hb hab
    obtain ⟨x, hx⟩ := key a ha
    obtain ⟨y, hy⟩ := key b hb
    simp only [upsGreater, hx, hy, decide_eq_true_eq, decide_eq_false_iff_not, not_lt] at hab ⊢
    exact le_of_lt hab
  · intro a ha b hb c hc hab hbc
    obtain ⟨x, hx⟩ := key a ha
    obtain ⟨y, hy⟩ := key b hb
    obtain ⟨z, hz⟩ := key c hc
    simp only [upsGreater, hx, hy, hz, decide_eq_false_iff_not, not_lt] at hab hbc ⊢
    exact le_trans hab hbc

/-! ## Inversion lemmas for the run -/

/-- A run that hands a report to the print command passed every stage. -/
theorem main_printed (env : Env) (r : String)
    (h : (main env).outcome = Outcome.printed r) :
    ∃ weatherData t1 stockData t2 newsData t3 redditData,
      env.fetchData weatherUrl = some weatherData ∧
      stocksStage env = (t1, Except.ok stockData) ∧
      newsStage env = (t2, Except.ok newsData) ∧
      redditStage env = (t3, Except.ok redditData) ∧
      assemble env weatherData stockData newsData redditData = some r ∧
      (main env).fetched = Req.weather :: (t1 ++ t2 ++ t3) := by
  unfold main at h ⊢
  cases hw : env.fetchData weatherUrl with
  | none => simp [hw] at h
  | some weatherData =>
    rcases hs : stocksStage env with ⟨t1, _ | stockData⟩
    · simp [hw, hs] at h
    rcases hn : newsStage env with ⟨t2, _ | newsData⟩
    · simp [hw, hs, hn] at h
    rcases hr : redditStage env with ⟨t3, _ | redditData⟩
    · simp [hw, hs, hn, hr] at h
    cases ha : assemble env weatherData stockData newsData redditData with
    | none => simp [hw, hs, hn, hr, ha] at h
    | some report =>
      simp only [hw, hs, hn, hr, ha, Outcome.printed.injEq] at h
      subst h
      exact ⟨weatherData, t1, stockData, t2, newsData, t3, redditData, rfl, rfl, rfl, rfl, ha, by
        simp [hw, hs, hn, hr, ha]⟩

/-- A reddit loop that runs to its end fetched every community and found a
post to retain in each. -/
theorem redditLoop_ok (fetchData : String → Option Object)
    (sort : {α : Type} → (α → α → Bool) → List α → List α)
    (subs : List String) (acc : GoMap Value) (t : List Req) (rd : GoMap Value)
    (h : redditLoop fetchData sort subs acc = (t, Except.ok rd)) :
    ∀ s ∈ subs, ∃ data top, fetchData (redditUrl s) = some data ∧
      topPost sort data = some top := by
  induction subs generalizing acc t with
  | nil => intro s hs; cases hs
  | cons sub rest ih =>
    unfold redditLoop at h
    cases hf : fetchData (redditUrl sub) with
    | none => simp [hf] at h
    | some data =>
      cases htop : topPost sort data with
      | none => simp [hf, htop] at h
      | some top =>
        simp only [hf, htop, Prod.mk.injEq] at h
        intro s hs
        rcases List.mem_cons.mp hs with rfl | hs2
        · exact ⟨data, top, hf, htop⟩
        · exact ih (mapInsert acc sub top) _ (Prod.ext rfl h.2) s hs2

/-- A post can only be retained from a listing that has one. -/
theorem topPost_some_nonempty (sort : {α : Type} → (α → α → Bool) → List α → List α)
    (data : Object) (top : Value)
    (h : topPost sort data = some top) :
    ∃ children, childrenOf data = some children ∧ children ≠ [] := by
  unfold topPost at h
  cases hc : childrenOf data with
  | none => simp [hc] at h
  | some children =>
    refine ⟨children, rfl, ?_⟩
    rintro rfl
    simp [hc, sortByUps] at h

/-- With no posts in the listing the index expression `children[0]` is out of
range. -/
theorem topPost_empty (sort : {α : Type} → (α → α → Bool) → List α → List α)
    (data : Object) (h : childrenOf data = some []) : topPost sort data = none := by
  simp [topPost, h, sortByUps]

/-- The first post of highest upvote count heads the posts that carry that
count. -/
theorem firstMaxPost_spec (children : List Value) (hne : children ≠ [])
    (hups : ∀ c ∈ children, (upsOf c).isSome = true) :
    ∃ best m, firstMaxPost children = some best ∧ upsOf best = some m ∧
      (∀ c ∈ children, ∀ v, upsOf c = some v → v ≤ m) ∧
      (children.filter (fun c => decide (upsOf c = some m))).head? = some best := by
  induction children with
  | nil => exact absurd rfl hne
  | cons c rest ih =>
    obtain ⟨x, hx⟩ := Option.isSome_iff_exists.mp (hups c (List.mem_cons_self _ _))
    by_cases hrest : rest = []
    · subst hrest
      refine ⟨c, x, by simp [firstMaxPost], hx, ?_, by simp [hx]⟩
      intro d hd v hv
      simp only [List.mem_singleton] at hd
      subst hd
      rw [hx] at hv
      exact le_of_eq (Option.some.inj hv).symm
    · obtain ⟨best, m, hbest, hm, hall, hhead⟩ :=
        ih hrest (fun d hd => hups d (List.mem_cons_of_mem _ hd))
      by_cases hgt : m > x
      · refine ⟨best, m, by simp [firstMaxPost, hbest, upsGreater, hm, hx, hgt], hm, ?_, ?_⟩
        · intro d hd v hv
          rcases List.mem_cons.mp hd with rfl | hd2
          · rw [hx] at hv
            exact (Option.some.inj hv) ▸ le_of_lt hgt
          · exact hall d hd2 v hv
        · have hne2 : ¬ (x = m) := ne_of_lt hgt
          simpa [List.filter_cons, hx, hne2] using hhead
      · have hle : m ≤ x := not_lt.mp hgt
        refine ⟨c, x, by simp [firstMaxPost, hbest, upsGreater, hm, hx, hgt], hx, ?_, by
          simp [List.filter_cons, hx]⟩
        intro d hd v hv
        rcases List.mem_cons.mp hd with rfl | hd2
        · rw [hx] at hv
          exact le_of_eq (Option.some.inj hv).symm
        · exact le_trans (hall d hd2 v hv) hle

/-- The sorted slice of a non-empty listing whose posts all carry a numeric
`ups` starts with a post of the listing that no post of the listing exceeds. -/
theorem sortByUps_head (sort : {α : Type} → (α → α → Bool) → List α → List α)
    (hsort : SortContract sort) (children : List Value) (hne : children ≠ [])
    (hups : ∀ c ∈ children, (upsOf c).isSome = true) :
    ∃ top rest u, sortByUps sort children = some (top :: rest) ∧ top ∈ children ∧
      upsOf top = some u ∧ (∀ c ∈ children, ∀ v, upsOf c = some v → v ≤ u) ∧
      (¬ children.length < 2 → sort upsGreater children = top :: rest) := by
  by_cases hlen : children.length < 2
  · match children, hne, hlen with
    | [c], _, _ =>
      obtain ⟨u, hu⟩ := Option.isSome_iff_exists.mp (hups c (List.mem_singleton_self c))
      refine ⟨c, [], u, by simp [sortByUps], List.mem_singleton_self c, hu, ?_, ?_⟩
      · intro d hd v hv
        simp only [List.mem_singleton] at hd
        subst hd
        rw [hu] at hv
        exact le_of_eq (Option.some.inj hv).symm
      · intro h
        exact absurd (by simp) h
    | _ :: _ :: _, _, h => exact absurd h (by simp)
  · have hall : children.all (fun c => (upsOf c).isSome) = true := by
      simpa [List.all_eq_true] using hups
    have hperm : (sort upsGreater children).Perm children := (hsort upsGreater children).1
    have hpw : (sort upsGreater children).Pairwise (fun a b => upsGreater b a = false) :=
      (hsort upsGreater children).2 (upsGreater_order children hups)
    have hsorted : sortByUps sort children = some (sort upsGreater children) := by
      simp [sortByUps, hlen, hall]
    cases hs : sort upsGreater children with
    | nil =>
      rw [hs] at hperm
      exact absurd (List.Perm.eq_nil hperm.symm) hne
    | cons top rest =>
      rw [hs] at hperm hpw hsorted
      have hmem : top ∈ children := hperm.subset (List.mem_cons_self _ _)
      obtain ⟨u, hu⟩ := Option.isSome_iff_exists.mp (hups top hmem)
      refine ⟨top, rest, u, hsorted, hmem, hu, ?_, fun _ => rfl⟩
      intro d hd v hv
      rcases List.mem_cons.mp (hperm.symm.subset hd) with rfl | hd2
      · rw [hu] at hv
        exact le_of_eq (Option.some.inj hv).symm
      · have hcmp := (List.pairwise_cons.mp hpw).1 d hd2
        simpa [upsGreater, hu, hv] using hcmp

/-! ## Claims about the reddit stage -/

/-- C1: for a listing with at least one post, all carrying a numeric upvote
count, the post retained for the community (`children[0]` after the sort) is
one of the posts of the listing and no post of the listing has more upvotes. -/
theorem topPost_is_max (sort : {α : Type} → (α → α → Bool) → List α → List α)
    (hsort : SortContract sort) (data : Object) (children : List Value)
    (hchildren : childrenOf data = some children) (hne : children ≠ [])
    (hups : ∀ c ∈ children, (upsOf c).isSome = true) :
    ∃ top u, topPost sort data = some top ∧ top ∈ children ∧ upsOf top = some u ∧
      ∀ c ∈ children, ∀ v, upsOf c = some v → v ≤ u := by
  obtain ⟨top, rest, u, hsorted, hmem, hu, hmax, _⟩ :=
    sortByUps_head sort hsort children hne hups
  refine ⟨top, u, ?_, hmem, hu, hmax⟩
  unfold topPost
  rw [hchildren]
  simp only [hsorted, List.head?_cons]

/-- C1, a concrete listing: with insertion sort as the sort, the post retained
from three posts with 2, 7 and 5 upvotes exists and tops every post. -/
theorem topPost_is_max_witness :
    ∃ top u, topPost (fun less l => insertionSort less l) (mkListing rankedPosts) = some top ∧
      top ∈ rankedPosts ∧ upsOf top = some u ∧
      ∀ c ∈ rankedPosts, ∀ v, upsOf c = some v → v ≤ u :=
  topPost_is_max (fun less l => insertionSort less l) insertionSort_contract
    (mkListing rankedPosts) rankedPosts rfl (by simp [rankedPosts])
    (by simp [rankedPosts, mkPost, upsOf, index, Value.asMap, Value.asFloat, List.lookup])

/-- C2 fails as stated: `sort.Slice` promises no order among equal elements.
The reversing sort meets its contract, and on thirteen posts whose fourth
("d") and seventh ("g") share the highest count it retains "g", while the first
post of highest count in response order is "d". -/
theorem topPost_tie_not_first :
    SortContract (fun less l => reversingSort less l) ∧
      topPost (fun less l => reversingSort less l) (mkListing tiedPosts) =
        some (mkPost "g" 10) ∧
      firstMaxPost tiedPosts = some (mkPost "d" 10) ∧
      upsOf (mkPost "g" 10) = upsOf (mkPost "d" 10) ∧
      mkPost "g" 10 ≠ mkPost "d" 10 := by
  refine ⟨reversingSort_contract, by rfl, by rfl, by rfl, ?_⟩
  intro h
  have ht := congrArg titleOf h
  simp [titleOf, mkPost, index, Value.asMap, Value.asString, List.lookup] at ht

/-- C2 as amended: when all posts carry a numeric upvote count, the retained
post is one of the posts that share the highest count; which of them is left
to `sort.Slice`.  If the sort left the posts of the highest count in their
original order, the retained post is the first of them in response order. -/
theorem topPost_tie_amended (sort : {α : Type} → (α → α → Bool) → List α → List α)
    (hsort : SortContract sort) (data : Object) (children : List Value)
    (hchildren : childrenOf data = some children) (hne : children ≠ [])
    (hups : ∀ c ∈ children, (upsOf c).isSome = true) :
    ∃ top u, topPost sort data = some top ∧ upsOf top = some u ∧
      (∀ c ∈ children, ∀ v, upsOf c = some v → v ≤ u) ∧
      top ∈ children.filter (fun c => decide (upsOf c = some u)) ∧
      ((sort upsGreater children).filter (fun c => decide (upsOf c = some u)) =
          children.filter (fun c => decide (upsOf c = some u)) →
        firstMaxPost children = some top) := by
  obtain ⟨top, rest, u, hsorted, hmem, hu, hmax, hlong⟩ :=
    sortByUps_head sort hsort children hne hups
  have htop : topPost sort data = some top := by
    unfold topPost
    rw [hchildren]
    simp only [hsorted, List.head?_cons]
  refine ⟨top, u, htop, hu, hmax, by simp [List.mem_filter, hmem, hu], ?_⟩
  intro hstable
  obtain ⟨best, m, hbest, hm, hall, hhead⟩ := firstMaxPost_spec children hne hups
  have hbm : best ∈ children := (List.mem_filter.mp (List.mem_of_mem_head? hhead)).1
  have hmu : m = u := le_antisymm (hmax best hbm m hm) (hall top hmem u hu)
  subst hmu
  rw [hbest]
  by_cases hlen : children.length < 2
  · match children, hne, hlen with
    | [c], _, _ =>
      simp only [List.mem_singleton] at hmem hbm
      rw [hmem, hbm]
    | _ :: _ :: _, _, h => exact absurd h (by simp)
  · have hfilter := hstable
    rw [hlong hlen] at hfilter
    rw [← hfilter] at hhead
    have hfb : top = best := by simpa [List.filter_cons, hu] using hhead
    rw [hfb]

/-- C2 as amended, a concrete listing: insertion sort leaves the two posts of
the highest count, "d" and "g", in their original order, and from the thirteen
posts `main` retains "d", the first of the two in response order. -/
theorem topPost_tie_amended_witness :
    (insertionSort upsGreater tiedPosts).filter (fun c => decide (upsOf c = some 10)) =
        tiedPosts.filter (fun c => decide (upsOf c = some 10)) ∧
      topPost (fun less l => insertionSort less l) (mkListing tiedPosts) =
        some (mkPost "d" 10) ∧
      mkPost "d" 10 ∈ tiedPosts.filter (fun c => decide (upsOf c = some 10)) ∧
      (∀ c ∈ tiedPosts, ∀ v, upsOf c = some v → v ≤ 10) ∧
      firstMaxPost tiedPosts = some (mkPost "d" 10) := by
  obtain ⟨top, u, htop, hu, hmax, hmem, hfirst⟩ :=
    topPost_tie_amended (fun less l => insertionSort less l) insertionSort_contract
      (mkListing tiedPosts) tiedPosts rfl (by simp [tiedPosts])
      (by simp [tiedPosts, mkPost, upsOf, index, Value.asMap, Value.asFloat, List.lookup])
  have hd : topPost (fun less l => insertionSort less l) (mkListing tiedPosts) =
      some (mkPost "d" 10) := by rfl
  have htd : top = mkPost "d" 10 := by
    rw [hd] at htop
    exact (Option.some.inj htop).symm
  subst htd
  have hu10 : u = 10 := by
    have h10 : upsOf (mkPost "d" 10) = some 10 := by rfl
    rw [h10] at hu
    exact (Option.some.inj hu).symm
  subst hu10
  have hstable : (insertionSort upsGreater tiedPosts).filter
      (fun c => decide (upsOf c = some 10)) =
      tiedPosts.filter (fun c => decide (upsOf c = some 10)) := by rfl
  exact ⟨hstable, hd, hmem, hmax, hfirst hstable⟩

/-- C10: when the listing fetched for a configured community has an empty
list of posts, `children[0]` is out of range: the step for that community
crashes instead of logging a diagnostic, the reddit stage cannot complete, and
no report is printed. -/
theorem empty_listing_crashes (env : Env) (s : String) (data : Object)
    (hs : s ∈ SUBREDDITS) (hfetch : env.fetchData (redditUrl s) = some data)
    (hempty : childrenOf data = some []) :
    topPost env.sortSlice data = none ∧
      (∀ rest acc, redditLoop env.fetchData env.sortSlice (s :: rest) acc =
        ([Req.reddit s], Except.error Stop.crashed)) ∧
      (∀ t rd, redditStage env ≠ (t, Except.ok rd)) ∧
      (∀ r, (main env).outcome ≠ Outcome.printed r) := by
  have hcrash : topPost env.sortSlice data = none := topPost_empty env.sortSlice data hempty
  have hstage : ∀ t rd, redditStage env ≠ (t, Except.ok rd) := by
    intro t rd hok
    obtain ⟨data2, top, hf2, htop⟩ :=
      redditLoop_ok env.fetchData env.sortSlice SUBREDDITS [] t rd hok s hs
    rw [hfetch] at hf2
    cases hf2
    rw [hcrash] at htop
    cases htop
  refine ⟨hcrash, ?_, hstage, ?_⟩
  · intro rest acc
    simp [redditLoop, hfetch, hcrash]
  · intro r hr
    obtain ⟨_, _, _, _, _, t3, rd, _, _, _, hreddit, _, _⟩ := main_printed env r hr
    exact hstage t3 rd hreddit

/-- C10, a concrete run: the listing of r/technology comes back without
posts. -/
theorem empty_listing_crashes_witness :
    topPost (fun less l => insertionSort less l) (mkListing []) = none ∧
      (∀ rest acc,
        redditLoop emptyListingFetch (fun less l => insertionSort less l)
          ("technology" :: rest) acc = ([Req.reddit "technology"], Except.error Stop.crashed)) ∧
      (∀ t rd, redditStage { sampleEnv with fetchData := emptyListingFetch } ≠
        (t, Except.ok rd)) ∧
      (∀ r, (main { sampleEnv with fetchData := emptyListingFetch }).outcome ≠
        Outcome.printed r) :=
  empty_listing_crashes { sampleEnv with fetchData := emptyListingFetch } "technology"
    (mkListing []) (by decide) (by rfl) (by rfl)

/-- The index expression `children[0]` is in range exactly when the listing
has a post: every community of a completed reddit stage had one. -/
theorem redditStage_ok_nonempty (env : Env) (t : List Req) (rd : GoMap Value)
    (h : redditStage env = (t, Except.ok rd)) :
    ∀ s ∈ SUBREDDITS, ∃ data children, env.fetchData (redditUrl s) = some data ∧
      childrenOf data = some children ∧ children ≠ [] := by
  intro s hs
  obtain ⟨data, top, hf, htop⟩ :=
    redditLoop_ok env.fetchData env.sortSlice SUBREDDITS [] t rd h s hs
  obtain ⟨children, hc, hne⟩ := topPost_some_nonempty env.sortSlice data top htop
  exact ⟨data, children, hf, hc, hne⟩

/-! ## Claims about the formatters -/

theorem traverse_cons_some {α β : Type} (f : α → Option β) (a : α) (rest : List α)
    (r : List β) (h : traverse f (a :: rest) = some r) :
    ∃ b bs, f a = some b ∧ traverse f rest = some bs ∧ r = b :: bs := by
  unfold traverse at h
  cases hb : f a with
  | none => simp [hb] at h
  | some b =>
    cases hbs : traverse f rest with
    | none => simp [hb, hbs] at h
    | some bs =>
      simp only [hb, hbs, Option.some.injEq] at h
      exact ⟨b, bs, rfl, rfl, h.symm⟩

theorem traverse_length {α β : Type} (f : α → Option β) (l : List α) (r : List β)
    (h : traverse f l = some r) : r.length = l.length := by
  induction l generalizing r with
  | nil =>
    simp only [traverse, Option.some.injEq] at h
    subst h
    rfl
  | cons a rest ih =>
    obtain ⟨b, bs, _, hbs, rfl⟩ := traverse_cons_some f a rest r h
    simp [ih bs hbs]

/-- The loop of `printNews`, started at index `i`, writes the titles of the
next `MAXNEWS - i` articles. -/
theorem newsLoop_eq (i : Nat) (results : List Value) (titles : List String)
    (h : traverse articleTitle results = some titles) :
    newsLoop i results =
      some (joinLines ((titles.take (MAXNEWS - i)).map (fun t => "  " ++ t ++ "\n\n"))) := by
  induction results generalizing i titles with
  | nil =>
    simp only [traverse, Option.some.injEq] at h
    subst h
    simp [newsLoop, joinLines]
  | cons a rest ih =>
    obtain ⟨t, ts, ht, hts, rfl⟩ := traverse_cons_some articleTitle a rest titles h
    unfold newsLoop
    by_cases hi : i ≥ MAXNEWS
    · have h0 : MAXNEWS - i = 0 := Nat.sub_eq_zero_of_le hi
      simp [hi, h0, joinLines]
    · have hstep : MAXNEWS - i = (MAXNEWS - (i + 1)) + 1 := by omega
      simp only [hi, if_false, ht, ih (i + 1) ts hts]
      rw [hstep]
      simp [joinLines]

/-- C3: for a news result whose `results` list holds `n` articles, each with
a string title, `printNews` returns the section title "HEADLINES" followed by
the title lines of the first `min n 3` articles in the order of the source,
and never more than `MAXNEWS = 3` of them. -/
theorem printNews_first_three (newsData : Object) (results : List Value)
    (titles : List String)
    (hresults : (index newsData "results").asSlice = some results)
    (htitles : traverse articleTitle results = some titles) :
    printNews newsData =
        some ("HEADLINES\n\n" ++
          joinLines ((titles.take MAXNEWS).map (fun t => "  " ++ t ++ "\n\n"))) ∧
      (titles.take MAXNEWS).length = min results.length 3 ∧
      (titles.take MAXNEWS).length ≤ 3 := by
  have hlen := traverse_length articleTitle results titles htitles
  refine ⟨?_, ?_, ?_⟩
  · have hloop := newsLoop_eq 0 results titles htitles
    simp only [Nat.sub_zero] at hloop
    simp [printNews, hresults, hloop]
  · simp [MAXNEWS, hlen, Nat.min_comm]
  · simp [MAXNEWS]

/-- C3, a concrete result: four articles "A", "B", "C", "D" give three
lines. -/
theorem printNews_first_three_witness :
    printNews sampleNews =
        some ("HEADLINES\n\n" ++
          joinLines ((["A", "B", "C", "D"].take MAXNEWS).map (fun t => "  " ++ t ++ "\n\n"))) ∧
      (["A", "B", "C", "D"].take MAXNEWS).length = min 4 3 ∧
      (["A", "B", "C", "D"].take MAXNEWS).length ≤ 3 :=
  printNews_first_three sampleNews
    [Value.obj [("title", Value.str "A")], Value.obj [("title", Value.str "B")],
      Value.obj [("title", Value.str "C")], Value.obj [("title", Value.str "D")]]
    ["A", "B", "C", "D"] (by rfl) (by rfl)

theorem lookup_of_mem_nodup (table : List (Int × String)) (k : Int) (v : String)
    (hnodup : (table.map Prod.fst).Nodup) (hmem : (k, v) ∈ table) :
    table.lookup k = some v := by
  induction table with
  | nil => cases hmem
  | cons e rest ih =>
    obtain ⟨k2, v2⟩ := e
    simp only [List.map_cons, List.nodup_cons] at hnodup
    rcases List.mem_cons.mp hmem with heq | hrest
    · cases heq
      simp [List.lookup]
    · have hne : k ≠ k2 := by
        rintro rfl
        exact hnodup.1 (List.mem_map_of_mem Prod.fst hrest)
      have hbeq : (k == k2) = false := by simpa using hne
      simp only [List.lookup, hbeq]
      exact ih hnodup.2 hrest

theorem lookup_of_not_mem (table : List (Int × String)) (k : Int)
    (h : k ∉ table.map Prod.fst) : table.lookup k = none := by
  induction table with
  | nil => rfl
  | cons e rest ih =>
    obtain ⟨k2, v2⟩ := e
    simp only [List.map_cons, List.mem_cons, not_or] at h
    have hbeq : (k == k2) = false := by simpa using h.1
    simp only [List.lookup, hbeq]
    exact ih h.2

/-- The table `WMOCODES` has 28 entries with pairwise different codes. -/
theorem WMOCODES_keys : WMOCODES.length = 28 ∧ (WMOCODES.map Prod.fst).Nodup := by
  constructor
  · rfl
  · decide

/-- C4: for a weather result whose first daily weather code is `c` (with first
daily maximum and minimum temperatures present), the line `printWeather` writes
after "WEATHER" is four spaces, a label, " - High: " and the temperatures; the
label is the string `WMOCODES` associates with `c` when `c` is one of the 28
codes of the table, and the empty string when it is not. -/
theorem printWeather_label (fmtFloat : Nat → Rat → String) (weatherData daily : Object)
    (code high low : Rat)
    (hdaily : (index weatherData "daily").asMap = some daily)
    (hcode : firstFloat (index daily "weather_code") = some code)
    (hhigh : firstFloat (index daily "temperature_2m_max") = some high)
    (hlow : firstFloat (index daily "temperature_2m_min") = some low) :
    ∃ label,
      printWeather fmtFloat weatherData =
        some ("WEATHER\n" ++ ("    " ++ label ++ " - High: " ++ fmtFloat 1 high ++
          "°F, Low: " ++ fmtFloat 1 low ++ "°F\n\n")) ∧
      weatherCodeOf weatherData = some (floatToInt code) ∧
      (∀ text, (floatToInt code, text) ∈ WMOCODES → label = text) ∧
      (floatToInt code ∉ WMOCODES.map Prod.fst → label = "") := by
  refine ⟨wmoLabel (floatToInt code), ?_, ?_, ?_, ?_⟩
  · simp [printWeather, hdaily, hcode, hhigh, hlow]
  · simp [weatherCodeOf, hdaily, hcode]
  · intro text hmem
    simp [wmoLabel, lookup_of_mem_nodup WMOCODES _ text WMOCODES_keys.2 hmem]
  · intro hnot
    simp [wmoLabel, lookup_of_not_mem WMOCODES _ hnot]

/-- C4, a concrete forecast: code 3 with 88 and 71 degrees. -/
theorem printWeather_label_witness :
    ∃ label,
      printWeather sampleFmt sampleWeather =
        some ("WEATHER\n" ++ ("    " ++ label ++ " - High: " ++ sampleFmt 1 88 ++
          "°F, Low: " ++ sampleFmt 1 71 ++ "°F\n\n")) ∧
      weatherCodeOf sampleWeather = some (floatToInt 3) ∧
      (∀ text, (floatToInt 3, text) ∈ WMOCODES → label = text) ∧
      (floatToInt 3 ∉ WMOCODES.map Prod.fst → label = "") :=
  printWeather_label sampleFmt sampleWeather
    [("weather_code", Value.arr [Value.num 3]),
      ("temperature_2m_max", Value.arr [Value.num 88]),
      ("temperature_2m_min", Value.arr [Value.num 71])] 3 88 71 (by rfl) (by rfl) (by rfl) (by rfl)

/-! ## The shape of a run -/

/-- Every run ends in one of five ways: at the weather fetch, inside the
stocks, news or reddit stage, or after all stages in the assembly. -/
theorem main_shape (env : Env) :
    (env.fetchData weatherUrl = none ∧
        main env = ⟨[Req.weather],
          Outcome.stopped (Stop.aborted "Unable to retrieve weather data\n")⟩) ∨
      (∃ t1 stop, stocksStage env = (t1, Except.error stop) ∧
        main env = ⟨Req.weather :: t1, Outcome.stopped stop⟩) ∨
      (∃ t1 sd t2 stop, stocksStage env = (t1, Except.ok sd) ∧
        newsStage env = (t2, Except.error stop) ∧
        main env = ⟨Req.weather :: (t1 ++ t2), Outcome.stopped stop⟩) ∨
      (∃ t1 sd t2 nd t3 stop, stocksStage env = (t1, Except.ok sd) ∧
        newsStage env = (t2, Except.ok nd) ∧ redditStage env = (t3, Except.error stop) ∧
        main env = ⟨Req.weather :: (t1 ++ t2 ++ t3), Outcome.stopped stop⟩) ∨
      (∃ w t1 sd t2 nd t3 rd, env.fetchData weatherUrl = some w ∧
        stocksStage env = (t1, Except.ok sd) ∧ newsStage env = (t2, Except.ok nd) ∧
        redditStage env = (t3, Except.ok rd) ∧
        (main env).fetched = Req.weather :: (t1 ++ t2 ++ t3) ∧
        (main env).outcome =
          (match assemble env w sd nd rd with
            | none => Outcome.stopped Stop.crashed
            | some report => Outcome.printed report)) := by
  unfold main
  cases hw : env.fetchData weatherUrl with
  | none => exact Or.inl ⟨rfl, rfl⟩
  | some weatherData =>
    right
    rcases hs : stocksStage env with ⟨t1, stop | stockData⟩
    · exact Or.inl ⟨t1, stop, rfl, rfl⟩
    right
    rcases hn : newsStage env with ⟨t2, stop | newsData⟩
    · exact Or.inl ⟨t1, stockData, t2, stop, rfl, rfl, rfl⟩
    right
    rcases hr : redditStage env with ⟨t3, stop | redditData⟩
    · exact Or.inl ⟨t1, stockData, t2, newsData, t3, stop, rfl, rfl, rfl, rfl⟩
    right
    refine ⟨weatherData, t1, stockData, t2, newsData, t3, redditData, rfl, rfl, rfl, rfl, ?_, ?_⟩
    · cases ha : assemble env weatherData stockData newsData redditData <;> simp [ha]
    · cases ha : assemble env weatherData stockData newsData redditData <;> simp [ha]

theorem mapInsert_ne_nil {V : Type} (m : GoMap V) (k : String) (v : V) :
    mapInsert m k v ≠ [] := by
  unfold mapInsert
  split
  · rename_i h
    intro hnil
    have hm : m = [] := by simpa using hnil
    subst hm
    simp at h
  · simp

/-- A stocks loop that runs to its end fetched every ticker, issued exactly
the requests of its tickers, and leaves a non-empty map when it had a ticker
or started from a non-empty map. -/
theorem stocksLoop_ok (fetchData : String → Option Object) (key : String)
    (stocks : List String) (acc : GoMap Object) (t : List Req) (sd : GoMap Object)
    (h : stocksLoop fetchData key stocks acc = (t, Except.ok sd)) :
    (∀ s ∈ stocks, ∃ data, fetchData (stockUrl key s) = some data) ∧
      t = stocks.map Req.stock ∧ ((stocks ≠ [] ∨ acc ≠ []) → sd ≠ []) := by
  induction stocks generalizing acc t with
  | nil =>
    simp only [stocksLoop, Prod.mk.injEq, Except.ok.injEq] at h
    obtain ⟨rfl, rfl⟩ := h
    simp
  | cons stock rest ih =>
    unfold stocksLoop at h
    cases hf : fetchData (stockUrl key stock) with
    | none => simp [hf] at h
    | some data =>
      simp only [hf, Prod.mk.injEq] at h
      obtain ⟨ht, hrest⟩ := h
      obtain ⟨hall, htrace, hne⟩ := ih (mapInsert acc stock data) _ (Prod.ext rfl hrest)
      refine ⟨?_, ?_, fun _ => hne (Or.inr (mapInsert_ne_nil acc stock data))⟩
      · intro s hs
        rcases List.mem_cons.mp hs with rfl | hs2
        · exact ⟨data, hf⟩
        · exact hall s hs2
      · subst ht
        exact congrArg (List.cons (Req.stock stock)) htrace

/-- The stocks stage either was skipped for want of a key, or fetched every
configured ticker into a non-empty map. -/
theorem stocksStage_ok (env : Env) (t : List Req) (sd : GoMap Object)
    (h : stocksStage env = (t, Except.ok sd)) :
    (env.STOCKSKEY = "" ∧ t = [] ∧ sd = []) ∨
      (env.STOCKSKEY ≠ "" ∧ t = STOCKS.map Req.stock ∧ sd ≠ [] ∧
        ∀ s ∈ STOCKS, ∃ data, env.fetchData (stockUrl env.STOCKSKEY s) = some data) := by
  unfold stocksStage at h
  by_cases hk : env.STOCKSKEY = ""
  · simp only [hk, ne_eq, not_true_eq_false, if_false, Prod.mk.injEq, Except.ok.injEq] at h
    exact Or.inl ⟨hk, h.1.symm, h.2.symm⟩
  · simp only [ne_eq, hk, not_false_eq_true, if_true] at h
    obtain ⟨hall, htrace, hne⟩ := stocksLoop_ok env.fetchData env.STOCKSKEY STOCKS [] t sd h
    exact Or.inr ⟨hk, htrace, hne (Or.inl (by simp [STOCKS])), hall⟩

/-- The news stage either was skipped for want of a key, or fetched a result
with at least one article. -/
theorem newsStage_ok (env : Env) (t : List Req) (nd : Option Object)
    (h : newsStage env = (t, Except.ok nd)) :
    (env.NEWSKEY = "" ∧ t = [] ∧ nd = none) ∨
      (env.NEWSKEY ≠ "" ∧ t = [Req.news] ∧ ∃ m results, nd = some m ∧
        env.fetchData (newsUrl env.NEWSKEY) = some m ∧
        (index m "results").asSlice = some results ∧ results ≠ []) := by
  unfold newsStage at h
  by_cases hk : env.NEWSKEY = ""
  · simp only [hk, ne_eq, not_true_eq_false, if_false, Prod.mk.injEq, Except.ok.injEq] at h
    exact Or.inl ⟨hk, h.1.symm, h.2.symm⟩
  · simp only [ne_eq, hk, not_false_eq_true, if_true] at h
    cases hf : env.fetchData (newsUrl env.NEWSKEY) with
    | none => simp [hf] at h
    | some m =>
      cases hr : (index m "results").asSlice with
      | none => simp [hf, hr] at h
      | some results =>
        by_cases hlen : results.length = 0
        · simp [hf, hr, hlen] at h
        · simp only [hf, hr, hlen, if_false, Prod.mk.injEq, Except.ok.injEq] at h
          refine Or.inr ⟨hk, h.1.symm, m, results, h.2.symm, rfl, hr, ?_⟩
          intro hnil
          exact hlen (by simp [hnil])

/-- The news stage issues at most the one news request. -/
theorem newsStage_trace (env : Env) : ∀ q ∈ (newsStage env).1, q = Req.news := by
  intro q hq
  unfold newsStage at hq
  split at hq
  · split at hq
    · simpa using hq
    · split at hq
      · simpa using hq
      · split at hq <;> simpa using hq
  · simp at hq

/-- The reddit loop issues requests for communities only. -/
theorem redditLoop_trace (fetchData : String → Option Object)
    (sort : {α : Type} → (α → α → Bool) → List α → List α)
    (subs : List String) (acc : GoMap Value) :
    ∀ q ∈ (redditLoop fetchData sort subs acc).1, ∃ s, q = Req.reddit s := by
  induction subs generalizing acc with
  | nil => intro q hq; simp [redditLoop] at hq
  | cons sub rest ih =>
    intro q hq
    unfold redditLoop at hq
    split at hq
    · exact ⟨sub, by simpa using hq⟩
    · split at hq
      · exact ⟨sub, by simpa using hq⟩
      · simp only [List.mem_cons] at hq
        rcases hq with rfl | hq2
        · exact ⟨sub, rfl⟩
        · exact ih _ q hq2

/-- Every request of a run is the weather request or a request of one of
the three stages. -/
theorem main_fetched_mem (env : Env) (q : Req) (hq : q ∈ (main env).fetched) :
    q = Req.weather ∨ q ∈ (stocksStage env).1 ∨ q ∈ (newsStage env).1 ∨
      q ∈ (redditStage env).1 := by
  rcases main_shape env with ⟨_, hm⟩ | ⟨t1, stop, hs, hm⟩ | ⟨t1, sd, t2, stop, hs, hn, hm⟩ |
    ⟨t1, sd, t2, nd, t3, stop, hs, hn, hr, hm⟩ | ⟨w, t1, sd, t2, nd, t3, rd, _, hs, hn, hr, hm, _⟩
  · rw [hm] at hq
    simp only [List.mem_singleton] at hq
    exact Or.inl hq
  · rw [hm] at hq
    simp only [List.mem_cons] at hq
    rw [hs]
    tauto
  · rw [hm] at hq
    simp only [List.mem_cons, List.mem_append] at hq
    rw [hs, hn]
    tauto
  · rw [hm] at hq
    simp only [List.mem_cons, List.mem_append] at hq
    rw [hs, hn, hr]
    tauto
  · rw [hm] at hq
    simp only [List.mem_cons, List.mem_append] at hq
    rw [hs, hn, hr]
    tauto

/-! ## Claims about the run -/

/-- C5: the report of every run that reaches the print command is, in this
order, the header, the weather block, the markets block, the headlines block,
the reddit block and the footer (each block but the footer followed by the
newline `main` appends); the markets block is there exactly when stock data was
fetched (`stockData` is non-empty, which is the case exactly when the stocks
key is set) and the headlines block exactly when news data was fetched, which
then is non-empty. -/
theorem report_block_order (env : Env) (r : String)
    (h : (main env).outcome = Outcome.printed r) :
    ∃ weatherData stockData newsData redditData weather markets news reddit,
      env.fetchData weatherUrl = some weatherData ∧
      (stocksStage env).2 = Except.ok stockData ∧
      (newsStage env).2 = Except.ok newsData ∧
      (redditStage env).2 = Except.ok redditData ∧
      printWeather env.fmtFloat weatherData = some weather ∧
      printReddit env.rangeReddit redditData = some reddit ∧
      r = printHeader env.headerDate ++ "\n" ++ (weather ++ "\n") ++ markets ++ news ++
        (reddit ++ "\n") ++ printFooter env.footerDate ∧
      (stockData ≠ [] ↔ env.STOCKSKEY ≠ "") ∧
      (stockData ≠ [] → ∃ block,
        printMarkets env.fmtFloat env.rangeMarkets stockData = some block ∧
          markets = block ++ "\n") ∧
      (stockData = [] → markets = "") ∧
      (newsData ≠ none ↔ env.NEWSKEY ≠ "") ∧
      (∀ m, newsData = some m → m ≠ [] ∧ ∃ block,
        printNews m = some block ∧ news = block ++ "\n") ∧
      (newsData = none → news = "") := by
  obtain ⟨w, t1, sd, t2, nd, t3, rd, hw, hs, hn, hr, ha, _⟩ := main_printed env r h
  unfold assemble at ha
  cases hpw : printWeather env.fmtFloat w with
  | none => simp [hpw] at ha
  | some weather =>
  cases hpm : marketsPart env sd with
  | none => simp [hpw, hpm] at ha
  | some markets =>
  cases hpn : newsPart nd with
  | none => simp [hpw, hpm, hpn] at ha
  | some news =>
  cases hpr : printReddit env.rangeReddit rd with
  | none => simp [hpw, hpm, hpn, hpr] at ha
  | some reddit =>
  simp only [hpw, hpm, hpn, hpr, Option.some.injEq] at ha
  refine ⟨w, sd, nd, rd, weather, markets, news, reddit, hw, by rw [hs], by rw [hn], by rw [hr],
    hpw, hpr, ha.symm, ?_, ?_, ?_, ?_, ?_, ?_⟩
  · rcases stocksStage_ok env t1 sd hs with ⟨hk, _, hsd⟩ | ⟨hk, _, hsd, _⟩
    · simp [hk, hsd]
    · simp [hk, hsd]
  · intro hne
    have hpos : sd.length > 0 := List.length_pos.mpr hne
    unfold marketsPart at hpm
    simp only [hpos, if_true] at hpm
    cases hb : printMarkets env.fmtFloat env.rangeMarkets sd with
    | none => simp [hb] at hpm
    | some block =>
      simp only [hb, Option.map_some', Option.some.injEq] at hpm
      exact ⟨block, rfl, hpm.symm⟩
  · intro hnil
    subst hnil
    simpa [marketsPart] using hpm.symm
  · rcases newsStage_ok env t2 nd hn with ⟨hk, _, hnd⟩ | ⟨hk, _, m, results, hnd, _⟩
    · simp [hk, hnd]
    · simp [hk, hnd]
  · intro m hm
    subst hm
    have hne : m ≠ [] := by
      rcases newsStage_ok env t2 (some m) hn with ⟨_, _, hnd⟩ | ⟨_, _, m2, results, hnd, _, hres, _⟩
      · cases hnd
      · cases hnd
        rintro rfl
        simp [index, Value.asSlice] at hres
    have hpos : newsLen (some m) > 0 := List.length_pos.mpr hne
    refine ⟨hne, ?_⟩
    unfold newsPart at hpn
    simp only [hpos, if_true] at hpn
    cases hb : printNews m with
    | none => simp [hb] at hpn
    | some block =>
      simp only [hb, Option.map_some', Option.some.injEq] at hpn
      exact ⟨block, rfl, hpn.symm⟩
  · intro hnone
    subst hnone
    simpa [newsPart] using hpn.symm

set_option maxRecDepth 100000 in
/-- C5, a concrete run: the sample environment prints a report with all six
blocks. -/
theorem report_block_order_witness :
    (main sampleEnv).outcome = Outcome.printed sampleReport ∧
    ∃ weatherData stockData newsData redditData weather markets news reddit,
      sampleEnv.fetchData weatherUrl = some weatherData ∧
      (stocksStage sampleEnv).2 = Except.ok stockData ∧
      (newsStage sampleEnv).2 = Except.ok newsData ∧
      (redditStage sampleEnv).2 = Except.ok redditData ∧
      printWeather sampleEnv.fmtFloat weatherData = some weather ∧
      printReddit sampleEnv.rangeReddit redditData = some reddit ∧
      sampleReport = printHeader sampleEnv.headerDate ++ "\n" ++ (weather ++ "\n") ++ markets ++
        news ++ (reddit ++ "\n") ++ printFooter sampleEnv.footerDate ∧
      (stockData ≠ [] ↔ sampleEnv.STOCKSKEY ≠ "") ∧
      (stockData ≠ [] → ∃ block,
        printMarkets sampleEnv.fmtFloat sampleEnv.rangeMarkets stockData = some block ∧
          markets = block ++ "\n") ∧
      (stockData = [] → markets = "") ∧
      (newsData ≠ none ↔ sampleEnv.NEWSKEY ≠ "") ∧
      (∀ m, newsData = some m → m ≠ [] ∧ ∃ block,
        printNews m = some block ∧ news = block ++ "\n") ∧
      (newsData = none → news = "") :=
  ⟨by decide, report_block_order sampleEnv sampleReport (by decide)⟩

/-- C6: without a stocks key no quote is requested, `stockData` stays empty,
`printMarkets` is not called, and a printed report is exactly header, weather,
the optional headlines, reddit and footer, whatever the other fetches
return. -/
theorem no_key_no_markets (env : Env) (hkey : env.STOCKSKEY = "") :
    stocksStage env = ([], Except.ok []) ∧
      (∀ symbol, Req.stock symbol ∉ (main env).fetched) ∧
      marketsPart env [] = some "" ∧
      ∀ r, (main env).outcome = Outcome.printed r →
        ∃ weatherData newsData redditData weather news reddit,
          env.fetchData weatherUrl = some weatherData ∧
          (newsStage env).2 = Except.ok newsData ∧
          (redditStage env).2 = Except.ok redditData ∧
          printWeather env.fmtFloat weatherData = some weather ∧
          newsPart newsData = some news ∧
          printReddit env.rangeReddit redditData = some reddit ∧
          r = printHeader env.headerDate ++ "\n" ++ (weather ++ "\n") ++ news ++
            (reddit ++ "\n") ++ printFooter env.footerDate := by
  have hstage : stocksStage env = ([], Except.ok []) := by simp [stocksStage, hkey]
  refine ⟨hstage, ?_, by simp [marketsPart], ?_⟩
  · intro symbol hmem
    rcases main_fetched_mem env _ hmem with hq | hq | hq | hq
    · cases hq
    · simp [hstage] at hq
    · have := newsStage_trace env _ hq
      cases this
    · obtain ⟨s, hs⟩ := redditLoop_trace env.fetchData env.sortSlice SUBREDDITS [] _ hq
      cases hs
  · intro r hr
    obtain ⟨w, t1, sd, t2, nd, t3, rd, hw, hs, hn, hrd, ha, _⟩ := main_printed env r hr
    rw [hstage] at hs
    simp only [Prod.mk.injEq, Except.ok.injEq] at hs
    obtain ⟨_, rfl⟩ := hs
    unfold assemble at ha
    cases hpw : printWeather env.fmtFloat w with
    | none => simp [hpw] at ha
    | some weather =>
    cases hpn : newsPart nd with
    | none => simp [hpw, hpn] at ha
    | some news =>
    cases hpr : printReddit env.rangeReddit rd with
    | none => simp [hpw, hpn, hpr] at ha
    | some reddit =>
    have hm : marketsPart env [] = some "" := by simp [marketsPart]
    simp only [hpw, hm, hpn, hpr, Option.some.injEq, String.append_empty] at ha
    exact ⟨w, nd, rd, weather, news, reddit, hw, by rw [hn], by rw [hrd], hpw, hpn, hpr,
      ha.symm⟩

/-- C6, a concrete run: the sample environment without a stocks key. -/
theorem no_key_no_markets_witness :
    stocksStage noStocksEnv = ([], Except.ok []) ∧
      (∀ symbol, Req.stock symbol ∉ (main noStocksEnv).fetched) ∧
      marketsPart noStocksEnv [] = some "" ∧
      ∀ r, (main noStocksEnv).outcome = Outcome.printed r →
        ∃ weatherData newsData redditData weather news reddit,
          noStocksEnv.fetchData weatherUrl = some weatherData ∧
          (newsStage noStocksEnv).2 = Except.ok newsData ∧
          (redditStage noStocksEnv).2 = Except.ok redditData ∧
          printWeather noStocksEnv.fmtFloat weatherData = some weather ∧
          newsPart newsData = some news ∧
          printReddit noStocksEnv.rangeReddit redditData = some reddit ∧
          r = printHeader noStocksEnv.headerDate ++ "\n" ++ (weather ++ "\n") ++ news ++
            (reddit ++ "\n") ++ printFooter noStocksEnv.footerDate :=
  no_key_no_markets noStocksEnv (by rfl)

/-- C7: when an attempted fetch fails (the weather fetch, the fetch of a
configured ticker with the stocks key set, the news fetch with the news key
set, also when it returns an empty `results` list, or the fetch of a configured
community), the run stops at the weather fetch or inside the stocks, news or
reddit stage: its requests end with that stage, the later stages and the
assembly are not run, and no report reaches the print command. -/
theorem failed_fetch_stops_run (env : Env)
    (hfail : env.fetchData weatherUrl = none ∨
      (env.STOCKSKEY ≠ "" ∧ ∃ s ∈ STOCKS, env.fetchData (stockUrl env.STOCKSKEY s) = none) ∨
      (env.NEWSKEY ≠ "" ∧ (env.fetchData (newsUrl env.NEWSKEY) = none ∨
        ∃ m, env.fetchData (newsUrl env.NEWSKEY) = some m ∧
          (index m "results").asSlice = some [])) ∨
      (∃ s ∈ SUBREDDITS, env.fetchData (redditUrl s) = none)) :
    (∀ r, (main env).outcome ≠ Outcome.printed r) ∧
      ∃ stop, (main env).outcome = Outcome.stopped stop ∧
        ((env.fetchData weatherUrl = none ∧ (main env).fetched = [Req.weather] ∧
            stop = Stop.aborted "Unable to retrieve weather data\n") ∨
          (∃ t1, stocksStage env = (t1, Except.error stop) ∧
            (main env).fetched = Req.weather :: t1) ∨
          (∃ t1 sd t2, stocksStage env = (t1, Except.ok sd) ∧
            newsStage env = (t2, Except.error stop) ∧
            (main env).fetched = Req.weather :: (t1 ++ t2)) ∨
          (∃ t1 sd t2 nd t3, stocksStage env = (t1, Except.ok sd) ∧
            newsStage env = (t2, Except.ok nd) ∧
            redditStage env = (t3, Except.error stop) ∧
            (main env).fetched = Req.weather :: (t1 ++ t2 ++ t3))) := by
  have key : ∃ stop, (main env).outcome = Outcome.stopped stop ∧
        ((env.fetchData weatherUrl = none ∧ (main env).fetched = [Req.weather] ∧
            stop = Stop.aborted "Unable to retrieve weather data\n") ∨
          (∃ t1, stocksStage env = (t1, Except.error stop) ∧
            (main env).fetched = Req.weather :: t1) ∨
          (∃ t1 sd t2, stocksStage env = (t1, Except.ok sd) ∧
            newsStage env = (t2, Except.error stop) ∧
            (main env).fetched = Req.weather :: (t1 ++ t2)) ∨
          (∃ t1 sd t2 nd t3, stocksStage env = (t1, Except.ok sd) ∧
            newsStage env = (t2, Except.ok nd) ∧
            redditStage env = (t3, Except.error stop) ∧
            (main env).fetched = Req.weather :: (t1 ++ t2 ++ t3))) := by
    rcases main_shape env with ⟨hw, hm⟩ | ⟨t1, stop, hs, hm⟩ | ⟨t1, sd, t2, stop, hs, hn, hm⟩ |
      ⟨t1, sd, t2, nd, t3, stop, hs, hn, hr, hm⟩ |
      ⟨w, t1, sd, t2, nd, t3, rd, hw, hs, hn, hr, _, _⟩
    · exact ⟨_, by rw [hm], Or.inl ⟨hw, by rw [hm], rfl⟩⟩
    · exact ⟨stop, by rw [hm], Or.inr (Or.inl ⟨t1, hs, by rw [hm]⟩)⟩
    · exact ⟨stop, by rw [hm], Or.inr (Or.inr (Or.inl ⟨t1, sd, t2, hs, hn, by rw [hm]⟩))⟩
    · exact ⟨stop, by rw [hm],
        Or.inr (Or.inr (Or.inr ⟨t1, sd, t2, nd, t3, hs, hn, hr, by rw [hm]⟩))⟩
    · exfalso
      rcases hfail with hf | ⟨hk, s, hs2, hf⟩ | ⟨hk, hf⟩ | ⟨s, hs2, hf⟩
      · rw [hw] at hf
        cases hf
      · rcases stocksStage_ok env t1 sd hs with ⟨hk2, _, _⟩ | ⟨_, _, _, hall⟩
        · exact hk hk2
        · obtain ⟨data, hd⟩ := hall s hs2
          rw [hd] at hf
          cases hf
      · rcases newsStage_ok env t2 nd hn with ⟨hk2, _, _⟩ | ⟨_, _, m, results, _, hm, hres, hne⟩
        · exact hk hk2
        · rcases hf with hf | ⟨m2, hm2, hres2⟩
          · rw [hm] at hf
            cases hf
          · rw [hm] at hm2
            cases hm2
            rw [hres] at hres2
            cases hres2
            exact hne rfl
      · obtain ⟨data, top, hd, _⟩ :=
          redditLoop_ok env.fetchData env.sortSlice SUBREDDITS [] t3 rd hr s hs2
        rw [hd] at hf
        cases hf
  refine ⟨?_, key⟩
  intro r hr
  obtain ⟨stop, hstop, _⟩ := key
  rw [hstop] at hr
  cases hr

set_option maxRecDepth 100000 in
/-- C7, a concrete run: the quote of SPY cannot be fetched; the run stops in
the stocks stage after three requests. -/
theorem failed_fetch_stops_run_witness :
    main spyDownEnv = ⟨[Req.weather, Req.stock "DIA", Req.stock "SPY"],
        Outcome.stopped (Stop.aborted "Unable to retrieve stock data for SPY\n")⟩ ∧
      (∀ r, (main spyDownEnv).outcome ≠ Outcome.printed r) ∧
      ∃ stop, (main spyDownEnv).outcome = Outcome.stopped stop ∧
        ((spyDownEnv.fetchData weatherUrl = none ∧ (main spyDownEnv).fetched = [Req.weather] ∧
            stop = Stop.aborted "Unable to retrieve weather data\n") ∨
          (∃ t1, stocksStage spyDownEnv = (t1, Except.error stop) ∧
            (main spyDownEnv).fetched = Req.weather :: t1) ∨
          (∃ t1 sd t2, stocksStage spyDownEnv = (t1, Except.ok sd) ∧
            newsStage spyDownEnv = (t2, Except.error stop) ∧
            (main spyDownEnv).fetched = Req.weather :: (t1 ++ t2)) ∨
          (∃ t1 sd t2 nd t3, stocksStage spyDownEnv = (t1, Except.ok sd) ∧
            newsStage spyDownEnv = (t2, Except.ok nd) ∧
            redditStage spyDownEnv = (t3, Except.error stop) ∧
            (main spyDownEnv).fetched = Req.weather :: (t1 ++ t2 ++ t3))) :=
  ⟨by decide, failed_fetch_stops_run spyDownEnv
    (Or.inr (Or.inl ⟨by decide, "SPY", by decide, by rfl⟩))⟩

/-! ## Blank lines between the blocks -/

theorem takeWhile_replicate_newlines (k : Nat) (c : Char) (rest : List Char)
    (hc : c ≠ '\n') :
    (List.replicate k '\n' ++ c :: rest).takeWhile (fun x => x == '\n') =
      List.replicate k '\n' := by
  induction k with
  | zero =>
    have hb : (c == '\n') = false := by simpa using hc
    simp [List.takeWhile, hb]
  | succ n ih => simp [List.replicate_succ, List.takeWhile, ih]

theorem trailingNewlines_of_endsWith (s : String) (k : Nat) (h : EndsWith s k) :
    trailingNewlines s = k := by
  obtain ⟨before, c, hc, hdata⟩ := h
  unfold trailingNewlines
  rw [hdata]
  simp only [List.reverse_append, List.reverse_cons, List.reverse_replicate,
    List.append_assoc, List.singleton_append]
  rw [takeWhile_replicate_newlines k c _ hc]
  simp

theorem length_takeWhile_replicate_append (k : Nat) (rest : List Char) :
    k ≤ ((List.replicate k '\n' ++ rest).takeWhile (fun x => x == '\n')).length := by
  induction k with
  | zero => simp
  | succ n ih =>
    have hstep : (List.replicate (n + 1) '\n' ++ rest).takeWhile (fun x => x == '\n') =
        '\n' :: (List.replicate n '\n' ++ rest).takeWhile (fun x => x == '\n') := by
      simp [List.replicate_succ, List.takeWhile]
    rw [hstep, List.length_cons]
    omega

theorem trailingNewlines_of_endsWithAtLeast (s : String) (k : Nat)
    (h : EndsWithAtLeast s k) : k ≤ trailingNewlines s := by
  obtain ⟨before, hdata⟩ := h
  unfold trailingNewlines
  rw [hdata]
  simp only [List.reverse_append, List.reverse_replicate]
  exact length_takeWhile_replicate_append k _

theorem endsWith_append_left (a b : String) (k : Nat) (h : EndsWith b k) :
    EndsWith (a ++ b) k := by
  obtain ⟨before, c, hc, hdata⟩ := h
  exact ⟨a.data ++ before, c, hc, by simp [String.data_append, hdata]⟩

theorem endsWith_append_newline (a : String) (k : Nat) (h : EndsWith a k) :
    EndsWith (a ++ "\n") (k + 1) := by
  obtain ⟨before, c, hc, hdata⟩ := h
  refine ⟨before, c, hc, ?_⟩
  have hnl : ("\n" : String).data = ['\n'] := rfl
  rw [String.data_append, hdata, hnl, List.replicate_succ']
  simp

theorem endsWithAtLeast_append_left (a b : String) (k : Nat) (h : EndsWithAtLeast b k) :
    EndsWithAtLeast (a ++ b) k := by
  obtain ⟨before, hdata⟩ := h
  exact ⟨a.data ++ before, by simp [String.data_append, hdata]⟩

theorem endsWithAtLeast_append_newline (a : String) (k : Nat) (h : EndsWithAtLeast a k) :
    EndsWithAtLeast (a ++ "\n") (k + 1) := by
  obtain ⟨before, hdata⟩ := h
  refine ⟨before, ?_⟩
  have hnl : ("\n" : String).data = ['\n'] := rfl
  rw [String.data_append, hdata, hnl, List.replicate_succ']
  simp

theorem endsWith_atLeast (s : String) (k : Nat) (h : EndsWith s k) : EndsWithAtLeast s k := by
  obtain ⟨before, c, _, hdata⟩ := h
  exact ⟨before ++ [c], by simp [hdata]⟩

/-- A section title followed by lines that each end in a blank line ends in a
blank line. -/
theorem title_joinLines_endsWith (title : String) (lines : List String)
    (htitle : EndsWith title 2) (hlines : ∀ l ∈ lines, EndsWith l 2) :
    EndsWith (title ++ joinLines lines) 2 := by
  induction lines generalizing title with
  | nil => simpa [joinLines] using htitle
  | cons l rest ih =>
    have h1 : EndsWith (title ++ l) 2 :=
      endsWith_append_left title l 2 (hlines l (List.mem_cons_self _ _))
    have h2 := ih (title ++ l) h1 (fun x hx => hlines x (List.mem_cons_of_mem _ hx))
    simpa [joinLines, String.append_assoc] using h2

theorem traverse_forall {α β : Type} (f : α → Option β) (l : List α) (r : List β)
    (h : traverse f l = some r) : ∀ b ∈ r, ∃ a ∈ l, f a = some b := by
  induction l generalizing r with
  | nil =>
    simp only [traverse, Option.some.injEq] at h
    subst h
    intro b hb
    cases hb
  | cons a rest ih =>
    obtain ⟨b0, bs, hb0, hbs, rfl⟩ := traverse_cons_some f a rest r h
    intro b hb
    rcases List.mem_cons.mp hb with rfl | hb2
    · exact ⟨a, List.mem_cons_self _ _, hb0⟩
    · obtain ⟨a2, ha2, hf⟩ := ih bs hbs b hb2
      exact ⟨a2, List.mem_cons_of_mem _ ha2, hf⟩

set_option maxRecDepth 100000 in
theorem printHeader_endsWith (date : String) : EndsWith (printHeader date) 1 := by
  unfold printHeader
  apply endsWith_append_left
  exact ⟨List.replicate 77 '-', '-', by decide, by rfl⟩

theorem printWeather_endsWith (fmtFloat : Nat → Rat → String) (weatherData : Object)
    (weather : String) (h : printWeather fmtFloat weatherData = some weather) :
    EndsWith weather 2 := by
  unfold printWeather at h
  split at h
  · cases h
  · split at h
    · simp only [Option.some.injEq] at h
      subst h
      apply endsWith_append_left
      apply endsWith_append_left
      exact ⟨['°'], 'F', by decide, by rfl⟩
    · cases h

theorem marketLine_endsWith (fmtFloat : Nat → Rat → String) (entry : String × Object)
    (line : String) (h : marketLine fmtFloat entry = some line) : EndsWith line 2 := by
  unfold marketLine at h
  split at h
  · simp only [Option.some.injEq] at h
    subst h
    apply endsWith_append_left
    exact ⟨['%'], ')', by decide, by rfl⟩
  · cases h

theorem redditLine_endsWith (entry : String × Value) (line : String)
    (h : redditLine entry = some line) : EndsWith line 2 := by
  unfold redditLine at h
  split at h
  · simp only [Option.some.injEq] at h
    subst h
    apply endsWith_append_left
    exact ⟨[], ')', by decide, by rfl⟩
  · cases h

theorem printMarkets_endsWith (fmtFloat : Nat → Rat → String)
    (iter : {α : Type} → List α → List α) (stockData : GoMap Object) (block : String)
    (h : printMarkets fmtFloat iter stockData = some block) : EndsWith block 2 := by
  unfold printMarkets at h
  cases ht : traverse (marketLine fmtFloat) (iter stockData) with
  | none => simp [ht] at h
  | some lines =>
    simp only [ht, Option.some.injEq] at h
    subst h
    apply title_joinLines_endsWith
    · exact ⟨['M', 'A', 'R', 'K', 'E', 'T'], 'S', by decide, by rfl⟩
    · intro l hl
      obtain ⟨e, _, he⟩ := traverse_forall _ _ _ ht l hl
      exact marketLine_endsWith fmtFloat e l he

theorem printReddit_endsWith (iter : {α : Type} → List α → List α)
    (redditData : GoMap Value) (block : String)
    (h : printReddit iter redditData = some block) : EndsWith block 2 := by
  unfold printReddit at h
  cases ht : traverse redditLine (iter redditData) with
  | none => simp [ht] at h
  | some lines =>
    simp only [ht, Option.some.injEq] at h
    subst h
    apply title_joinLines_endsWith
    · exact ⟨['R', 'E', 'D', 'D', 'I'], 'T', by decide, by rfl⟩
    · intro l hl
      obtain ⟨e, _, he⟩ := traverse_forall _ _ _ ht l hl
      exact redditLine_endsWith e l he

theorem newsLoop_endsWith (i : Nat) (results : List Value) (text : String)
    (h : newsLoop i results = some text) : text = "" ∨ EndsWithAtLeast text 2 := by
  induction results generalizing i text with
  | nil =>
    simp only [newsLoop, Option.some.injEq] at h
    exact Or.inl h.symm
  | cons a rest ih =>
    unfold newsLoop at h
    split at h
    · simp only [Option.some.injEq] at h
      exact Or.inl h.symm
    · split at h
      · cases h
      · split at h
        · cases h
        · rename_i title _ more hmore
          simp only [Option.some.injEq] at h
          subst h
          right
          rcases ih (i + 1) more hmore with rfl | hm
          · rw [String.append_empty]
            apply endsWithAtLeast_append_left
            exact ⟨[], by rfl⟩
          · exact endsWithAtLeast_append_left _ more 2 hm

theorem printNews_endsWith (newsData : Object) (block : String)
    (h : printNews newsData = some block) : EndsWithAtLeast block 2 := by
  unfold printNews at h
  split at h
  · cases h
  · split at h
    · cases h
    · rename_i lines hlines
      simp only [Option.some.injEq] at h
      subst h
      rcases newsLoop_endsWith 0 _ lines hlines with rfl | hl
      · exact ⟨['H', 'E', 'A', 'D', 'L', 'I', 'N', 'E', 'S'], by rfl⟩
      · exact endsWithAtLeast_append_left _ lines 2 hl

theorem startsLine_append (a b : String) (h : StartsLine a) : StartsLine (a ++ b) := by
  obtain ⟨c, rest, hc, hdata⟩ := h
  exact ⟨c, rest ++ b.data, hc, by simp [String.data_append, hdata]⟩

theorem startsLine_append_of_empty_or (a b : String) (ha : a = "" ∨ StartsLine a)
    (hb : StartsLine b) : StartsLine (a ++ b) := by
  rcases ha with rfl | h
  · simpa using hb
  · exact startsLine_append a b h

theorem printWeather_startsLine (fmtFloat : Nat → Rat → String) (weatherData : Object)
    (weather : String) (h : printWeather fmtFloat weatherData = some weather) :
    StartsLine weather := by
  unfold printWeather at h
  split at h
  · cases h
  · split at h
    · simp only [Option.some.injEq] at h
      subst h
      apply startsLine_append
      exact ⟨'W', ['E', 'A', 'T', 'H', 'E', 'R', '\n'], by decide, by rfl⟩
    · cases h

theorem printReddit_startsLine (iter : {α : Type} → List α → List α)
    (redditData : GoMap Value) (block : String)
    (h : printReddit iter redditData = some block) : StartsLine block := by
  unfold printReddit at h
  split at h
  · cases h
  · simp only [Option.some.injEq] at h
    subst h
    apply startsLine_append
    exact ⟨'R', ['E', 'D', 'D', 'I', 'T', '\n', '\n'], by decide, by rfl⟩

set_option maxRecDepth 100000 in
theorem printFooter_startsLine (date : String) : StartsLine (printFooter date) := by
  unfold printFooter
  apply startsLine_append
  exact ⟨'-', List.replicate 77 '-' ++ ['\n'], by decide, by rfl⟩

/-- The markets part is empty or a block that begins with its title and is
followed by exactly two empty lines. -/
theorem marketsPart_shape (env : Env) (stockData : GoMap Object) (markets : String)
    (h : marketsPart env stockData = some markets) :
    markets = "" ∨ (EndsWith markets 3 ∧ StartsLine markets) := by
  unfold marketsPart at h
  split at h
  · cases hb : printMarkets env.fmtFloat env.rangeMarkets stockData with
    | none => simp [hb] at h
    | some block =>
      simp only [hb, Option.map_some', Option.some.injEq] at h
      subst h
      refine Or.inr ⟨endsWith_append_newline _ 2
        (printMarkets_endsWith env.fmtFloat env.rangeMarkets stockData block hb), ?_⟩
      apply startsLine_append
      unfold printMarkets at hb
      split at hb
      · cases hb
      · simp only [Option.some.injEq] at hb
        subst hb
        apply startsLine_append
        exact ⟨'M', ['A', 'R', 'K', 'E', 'T', 'S', '\n', '\n'], by decide, by rfl⟩
  · simp only [Option.some.injEq] at h
    exact Or.inl h.symm

/-- The headlines part is empty or a block that begins with its title and
ends with at least three newlines. -/
theorem newsPart_shape (newsData : Option Object) (news : String)
    (h : newsPart newsData = some news) :
    news = "" ∨ (EndsWithAtLeast news 3 ∧ StartsLine news) := by
  unfold newsPart at h
  split at h
  · simp only [Option.some.injEq] at h
    exact Or.inl h.symm
  · rename_i m
    split at h
    · cases hb : printNews m with
      | none => simp [hb] at h
      | some block =>
        simp only [hb, Option.map_some', Option.some.injEq] at h
        subst h
        refine Or.inr ⟨endsWithAtLeast_append_newline _ 2 (printNews_endsWith m block hb), ?_⟩
        apply startsLine_append
        unfold printNews at hb
        split at hb
        · cases hb
        · split at hb
          · cases hb
          · simp only [Option.some.injEq] at hb
            subst hb
            apply startsLine_append
            exact ⟨'H', ['E', 'A', 'D', 'L', 'I', 'N', 'E', 'S', '\n', '\n'], by decide, by rfl⟩
    · simp only [Option.some.injEq] at h
      exact Or.inl h.symm

set_option maxRecDepth 100000 in
/-- C8 fails as stated: in the report of the sample environment two empty
lines, not one, stand between the last line of the weather block and the
title of the markets block. -/
theorem two_blank_lines_after_weather :
    (main sampleEnv).outcome = Outcome.printed sampleReport ∧
      (linesOf sampleReport).take 9 =
        ["SCHMELYUN TRIBUNE                    Mon Nov 2 2026",
          "------------------------------------------------------------------------------",
          "",
          "WEATHER",
          "    Overcast - High: 88.0°F, Low: 71.0°F",
          "",
          "",
          "MARKETS",
          ""] := by
  constructor
  · decide
  · decide

/-- C8 as amended: in every printed report exactly one empty line stands
between the header and the weather block, and exactly two empty lines (the
blank line the formatter ends with and the newline `main` appends) stand
between the weather block and the block after it, between the markets block,
when present, and the block after it, and between the reddit block and the
footer; the headlines block, when present, ends with at least three newlines,
so at least two empty lines stand between it and the reddit block.  Every
block begins with a non-empty line. -/
theorem block_separation (env : Env) (r : String)
    (h : (main env).outcome = Outcome.printed r) :
    ∃ weatherData stockData newsData redditData weather markets news reddit,
      env.fetchData weatherUrl = some weatherData ∧
      (stocksStage env).2 = Except.ok stockData ∧
      (newsStage env).2 = Except.ok newsData ∧
      (redditStage env).2 = Except.ok redditData ∧
      printWeather env.fmtFloat weatherData = some weather ∧
      marketsPart env stockData = some markets ∧
      newsPart newsData = some news ∧
      printReddit env.rangeReddit redditData = some reddit ∧
      r = printHeader env.headerDate ++ "\n" ++ (weather ++ "\n") ++ markets ++ news ++
        (reddit ++ "\n") ++ printFooter env.footerDate ∧
      trailingNewlines (printHeader env.headerDate ++ "\n") = 2 ∧
      trailingNewlines (weather ++ "\n") = 3 ∧
      (markets = "" ∨ trailingNewlines markets = 3) ∧
      (news = "" ∨ 3 ≤ trailingNewlines news) ∧
      trailingNewlines (reddit ++ "\n") = 3 ∧
      BlankLinesBetween 1 (printHeader env.headerDate ++ "\n") (weather ++ "\n") ∧
      BlankLinesBetween 2 (weather ++ "\n") (markets ++ news ++ (reddit ++ "\n")) ∧
      (markets = "" ∨ BlankLinesBetween 2 markets (news ++ (reddit ++ "\n"))) ∧
      (news = "" ∨ (EndsWithAtLeast news 3 ∧ StartsLine (reddit ++ "\n"))) ∧
      BlankLinesBetween 2 (reddit ++ "\n") (printFooter env.footerDate) := by
  obtain ⟨w, t1, sd, t2, nd, t3, rd, hw, hs, hn, hr, ha, _⟩ := main_printed env r h
  unfold assemble at ha
  cases hpw : printWeather env.fmtFloat w with
  | none => simp [hpw] at ha
  | some weather =>
  cases hpm : marketsPart env sd with
  | none => simp [hpw, hpm] at ha
  | some markets =>
  cases hpn : newsPart nd with
  | none => simp [hpw, hpm, hpn] at ha
  | some news =>
  cases hpr : printReddit env.rangeReddit rd with
  | none => simp [hpw, hpm, hpn, hpr] at ha
  | some reddit =>
  simp only [hpw, hpm, hpn, hpr, Option.some.injEq] at ha
  refine ⟨w, sd, nd, rd, weather, markets, news, reddit, hw, by rw [hs], by rw [hn], by rw [hr],
    hpw, hpm, hpn, hpr, ha.symm, ?_, ?_, ?_, ?_, ?_, ?_, ?_, ?_, ?_, ?_⟩
  · exact trailingNewlines_of_endsWith _ 2
      (endsWith_append_newline _ 1 (printHeader_endsWith env.headerDate))
  · exact trailingNewlines_of_endsWith _ 3
      (endsWith_append_newline _ 2 (printWeather_endsWith env.fmtFloat w weather hpw))
  · unfold marketsPart at hpm
    split at hpm
    · cases hb : printMarkets env.fmtFloat env.rangeMarkets sd with
      | none => simp [hb] at hpm
      | some block =>
        simp only [hb, Option.map_some', Option.some.injEq] at hpm
        subst hpm
        exact Or.inr (trailingNewlines_of_endsWith _ 3
          (endsWith_append_newline _ 2
            (printMarkets_endsWith env.fmtFloat env.rangeMarkets sd block hb)))
    · simp only [Option.some.injEq] at hpm
      exact Or.inl hpm.symm
  · unfold newsPart at hpn
    split at hpn
    · simp only [Option.some.injEq] at hpn
      exact Or.inl hpn.symm
    · rename_i m
      split at hpn
      · cases hb : printNews m with
        | none => simp [hb] at hpn
        | some block =>
          simp only [hb, Option.map_some', Option.some.injEq] at hpn
          subst hpn
          exact Or.inr (trailingNewlines_of_endsWithAtLeast _ 3
            (endsWithAtLeast_append_newline _ 2 (printNews_endsWith m block hb)))
      · simp only [Option.some.injEq] at hpn
        exact Or.inl hpn.symm
  · exact trailingNewlines_of_endsWith _ 3
      (endsWith_append_newline _ 2 (printReddit_endsWith env.rangeReddit rd reddit hpr))
  · exact ⟨endsWith_append_newline _ 1 (printHeader_endsWith env.headerDate),
      startsLine_append _ _ (printWeather_startsLine env.fmtFloat w weather hpw)⟩
  · refine ⟨endsWith_append_newline _ 2 (printWeather_endsWith env.fmtFloat w weather hpw), ?_⟩
    have hreddit : StartsLine (reddit ++ "\n") :=
      startsLine_append _ _ (printReddit_startsLine env.rangeReddit rd reddit hpr)
    have hm : markets = "" ∨ StartsLine markets :=
      (marketsPart_shape env sd markets hpm).imp id (fun x => x.2)
    have hnews : news = "" ∨ StartsLine news :=
      (newsPart_shape nd news hpn).imp id (fun x => x.2)
    rw [String.append_assoc]
    exact startsLine_append_of_empty_or _ _ hm
      (startsLine_append_of_empty_or _ _ hnews hreddit)
  · rcases marketsPart_shape env sd markets hpm with hm | ⟨hend, _⟩
    · exact Or.inl hm
    · refine Or.inr ⟨hend, ?_⟩
      exact startsLine_append_of_empty_or _ _
        ((newsPart_shape nd news hpn).imp id (fun x => x.2))
        (startsLine_append _ _ (printReddit_startsLine env.rangeReddit rd reddit hpr))
  · rcases newsPart_shape nd news hpn with hnews | ⟨hend, _⟩
    · exact Or.inl hnews
    · exact Or.inr ⟨hend,
        startsLine_append _ _ (printReddit_startsLine env.rangeReddit rd reddit hpr)⟩
  · exact ⟨endsWith_append_newline _ 2 (printReddit_endsWith env.rangeReddit rd reddit hpr),
      printFooter_startsLine env.footerDate⟩

/-! ## The order of map iteration -/

theorem traverse_cons_intro {α β : Type} (f : α → Option β) (a : α) (rest : List α)
    (b : β) (bs : List β) (hb : f a = some b) (hbs : traverse f rest = some bs) :
    traverse f (a :: rest) = some (b :: bs) := by
  simp [traverse, hb, hbs]

/-- Walking the same entries in another order writes the same lines in
another order, and crashes if and only if the first walk does. -/
theorem traverse_perm {α β : Type} (f : α → Option β) (l1 l2 : List α)
    (hp : l1.Perm l2) :
    ∀ r1, traverse f l1 = some r1 → ∃ r2, traverse f l2 = some r2 ∧ r1.Perm r2 := by
  induction hp with
  | nil => intro r1 h; exact ⟨r1, h, List.Perm.refl _⟩
  | cons a _ ih =>
    intro r1 h
    obtain ⟨b, bs, hb, hbs, rfl⟩ := traverse_cons_some f a _ r1 h
    obtain ⟨bs2, hbs2, hperm⟩ := ih bs hbs
    exact ⟨b :: bs2, traverse_cons_intro f a _ b bs2 hb hbs2, List.Perm.cons b hperm⟩
  | swap a b l =>
    intro r1 h
    obtain ⟨y, ys, hy, hys, rfl⟩ := traverse_cons_some f b _ r1 h
    obtain ⟨x, xs, hx, hxs, rfl⟩ := traverse_cons_some f a _ ys hys
    exact ⟨x :: y :: xs,
      traverse_cons_intro f a _ x _ hx (traverse_cons_intro f b _ y xs hy hxs),
      List.Perm.swap x y xs⟩
  | trans _ _ ih1 ih2 =>
    intro r1 h
    obtain ⟨r2, h2, hp12⟩ := ih1 r1 h
    obtain ⟨r3, h3, hp23⟩ := ih2 r2 h2
    exact ⟨r3, h3, hp12.trans hp23⟩

/-- The reports of two assemblies that differ only in the order of the map
walks agree up to the order of the ticker lines and of the community lines. -/
theorem assemble_perm (env : Env) (iterMarkets iterReddit : {α : Type} → List α → List α)
    (hM : RangeContract env.rangeMarkets) (hR : RangeContract env.rangeReddit)
    (hM2 : RangeContract iterMarkets) (hR2 : RangeContract iterReddit)
    (w : Object) (sd : GoMap Object) (nd : Option Object) (rd : GoMap Value) (r : String)
    (h : assemble env w sd nd rd = some r) :
    ∃ weather news mLines mLines2 rLines rLines2,
      printWeather env.fmtFloat w = some weather ∧
      newsPart nd = some news ∧
      traverse (marketLine env.fmtFloat) (env.rangeMarkets sd) = some mLines ∧
      traverse (marketLine env.fmtFloat) (iterMarkets sd) = some mLines2 ∧
      traverse redditLine (env.rangeReddit rd) = some rLines ∧
      traverse redditLine (iterReddit rd) = some rLines2 ∧
      mLines.Perm mLines2 ∧ rLines.Perm rLines2 ∧
      r = printHeader env.headerDate ++ "\n" ++ (weather ++ "\n") ++
          (if sd.length > 0 then "MARKETS\n\n" ++ joinLines mLines ++ "\n" else "") ++ news ++
          ("REDDIT\n\n" ++ joinLines rLines ++ "\n") ++ printFooter env.footerDate ∧
      assemble (env.withRange iterMarkets iterReddit) w sd nd rd =
        some (printHeader env.headerDate ++ "\n" ++ (weather ++ "\n") ++
          (if sd.length > 0 then "MARKETS\n\n" ++ joinLines mLines2 ++ "\n" else "") ++ news ++
          ("REDDIT\n\n" ++ joinLines rLines2 ++ "\n") ++ printFooter env.footerDate) := by
  unfold assemble at h
  cases hpw : printWeather env.fmtFloat w with
  | none => simp [hpw] at h
  | some weather =>
  cases hpm : marketsPart env sd with
  | none => simp [hpw, hpm] at h
  | some markets =>
  cases hpn : newsPart nd with
  | none => simp [hpw, hpm, hpn] at h
  | some news =>
  cases hpr : printReddit env.rangeReddit rd with
  | none => simp [hpw, hpm, hpn, hpr] at h
  | some reddit =>
  simp only [hpw, hpm, hpn, hpr, Option.some.injEq] at h
  -- the community lines
  have hrl : ∃ rLines, traverse redditLine (env.rangeReddit rd) = some rLines ∧
      reddit = "REDDIT\n\n" ++ joinLines rLines := by
    unfold printReddit at hpr
    cases ht : traverse redditLine (env.rangeReddit rd) with
    | none => simp [ht] at hpr
    | some lines =>
      simp only [ht, Option.some.injEq] at hpr
      exact ⟨lines, rfl, hpr.symm⟩
  obtain ⟨rLines, hrt, hreddit⟩ := hrl
  have hpermR : (env.rangeReddit rd).Perm (iterReddit rd) := (hR rd).trans (hR2 rd).symm
  obtain ⟨rLines2, hrt2, hrp⟩ := traverse_perm redditLine _ _ hpermR rLines hrt
  -- the ticker lines
  have hml : ∃ mLines, traverse (marketLine env.fmtFloat) (env.rangeMarkets sd) = some mLines ∧
      markets = (if sd.length > 0 then "MARKETS\n\n" ++ joinLines mLines ++ "\n" else "") := by
    unfold marketsPart at hpm
    by_cases hpos : sd.length > 0
    · simp only [hpos, if_true] at hpm ⊢
      unfold printMarkets at hpm
      cases ht : traverse (marketLine env.fmtFloat) (env.rangeMarkets sd) with
      | none => simp [ht] at hpm
      | some lines =>
        simp only [ht, Option.map_some', Option.some.injEq] at hpm
        exact ⟨lines, rfl, hpm.symm⟩
    · have hnil : sd = [] := List.length_eq_zero.mp (by omega)
      subst hnil
      have hit : env.rangeMarkets ([] : GoMap Object) = [] := List.Perm.eq_nil (hM [])
      simp only [hpos, if_false, Option.some.injEq] at hpm
      exact ⟨[], by simp [hit, traverse], by simp [hpm.symm]⟩
  obtain ⟨mLines, hmt, hmarkets⟩ := hml
  have hpermM : (env.rangeMarkets sd).Perm (iterMarkets sd) := (hM sd).trans (hM2 sd).symm
  obtain ⟨mLines2, hmt2, hmp⟩ := traverse_perm (marketLine env.fmtFloat) _ _ hpermM mLines hmt
  refine ⟨weather, news, mLines, mLines2, rLines, rLines2, rfl, rfl, hmt, hmt2, hrt, hrt2,
    hmp, hrp, ?_, ?_⟩
  · rw [← h, hmarkets, hreddit]
  · have hw2 : printWeather (env.withRange iterMarkets iterReddit).fmtFloat w = some weather :=
      hpw
    have hr2 : printReddit (env.withRange iterMarkets iterReddit).rangeReddit rd =
        some ("REDDIT\n\n" ++ joinLines rLines2) := by
      show printReddit iterReddit rd = _
      simp [printReddit, hrt2]
    have hm2 : marketsPart (env.withRange iterMarkets iterReddit) sd =
        some (if sd.length > 0 then "MARKETS\n\n" ++ joinLines mLines2 ++ "\n" else "") := by
      unfold marketsPart
      by_cases hpos : sd.length > 0
      · simp only [hpos, if_true]
        show (printMarkets env.fmtFloat iterMarkets sd).map _ = _
        simp [printMarkets, hmt2]
      · simp [hpos]
    unfold assemble
    simp only [hw2, hm2, hpn, hr2]
    rfl

theorem assemble_none_perm (env : Env)
    (iterMarkets iterReddit : {α : Type} → List α → List α)
    (hM : RangeContract env.rangeMarkets) (hR : RangeContract env.rangeReddit)
    (hM2 : RangeContract iterMarkets) (hR2 : RangeContract iterReddit)
    (w : Object) (sd : GoMap Object) (nd : Option Object) (rd : GoMap Value)
    (h : assemble env w sd nd rd = none) :
    assemble (env.withRange iterMarkets iterReddit) w sd nd rd = none := by
  cases h2 : assemble (env.withRange iterMarkets iterReddit) w sd nd rd with
  | none => rfl
  | some r2 =>
    obtain ⟨_, _, _, _, _, _, _, _, _, _, _, _, _, _, _, hback⟩ :=
      assemble_perm (env.withRange iterMarkets iterReddit) env.rangeMarkets env.rangeReddit
        hM2 hR2 hM hR w sd nd rd r2 h2
    have henv : (env.withRange iterMarkets iterReddit).withRange env.rangeMarkets
        env.rangeReddit = env := rfl
    rw [henv, h] at hback
    cases hback

set_option maxRecDepth 100000 in
/-- C9 fails as stated: the sample environment and the same environment with
`stockData` walked back to front (SPY before DIA) receive the same responses
and date, both walks visit every entry once, and the two reports differ. -/
theorem report_depends_on_map_order :
    RangeContract (fun l => l) ∧ RangeContract (fun l => l.reverse) ∧
      (main sampleEnv).outcome = Outcome.printed sampleReport ∧
      (main reversedEnv).outcome = Outcome.printed reversedReport ∧
      sampleReport ≠ reversedReport := by
  refine ⟨fun l => List.Perm.refl l, fun l => List.reverse_perm l, ?_, ?_, ?_⟩
  · decide
  · decide
  · decide

/-- C9 as amended: for fixed responses, credentials and date stamps, two runs
that differ in the order in which the maps are walked issue the same requests
and stop the same way; when one prints a report the other prints the same
header, weather block, headlines block and footer in the same block order, and
the same ticker lines and community lines, possibly in another order. -/
theorem report_fixed_up_to_map_order (env : Env)
    (iterMarkets iterReddit : {α : Type} → List α → List α)
    (hM : RangeContract env.rangeMarkets) (hR : RangeContract env.rangeReddit)
    (hM2 : RangeContract iterMarkets) (hR2 : RangeContract iterReddit) :
    (main (env.withRange iterMarkets iterReddit)).fetched = (main env).fetched ∧
      (∀ stop, (main env).outcome = Outcome.stopped stop →
        (main (env.withRange iterMarkets iterReddit)).outcome = Outcome.stopped stop) ∧
      ∀ r, (main env).outcome = Outcome.printed r →
        ∃ weatherData stockData newsData redditData weather news mLines mLines2 rLines rLines2,
          env.fetchData weatherUrl = some weatherData ∧
          (stocksStage env).2 = Except.ok stockData ∧
          (newsStage env).2 = Except.ok newsData ∧
          (redditStage env).2 = Except.ok redditData ∧
          printWeather env.fmtFloat weatherData = some weather ∧
          newsPart newsData = some news ∧
          traverse (marketLine env.fmtFloat) (env.rangeMarkets stockData) = some mLines ∧
          traverse (marketLine env.fmtFloat) (iterMarkets stockData) = some mLines2 ∧
          traverse redditLine (env.rangeReddit redditData) = some rLines ∧
          traverse redditLine (iterReddit redditData) = some rLines2 ∧
          mLines.Perm mLines2 ∧ rLines.Perm rLines2 ∧
          r = printHeader env.headerDate ++ "\n" ++ (weather ++ "\n") ++
              (if stockData.length > 0 then "MARKETS\n\n" ++ joinLines mLines ++ "\n" else "") ++
              news ++ ("REDDIT\n\n" ++ joinLines rLines ++ "\n") ++
              printFooter env.footerDate ∧
          (main (env.withRange iterMarkets iterReddit)).outcome =
            Outcome.printed (printHeader env.headerDate ++ "\n" ++ (weather ++ "\n") ++
              (if stockData.length > 0 then "MARKETS\n\n" ++ joinLines mLines2 ++ "\n" else "") ++
              news ++ ("REDDIT\n\n" ++ joinLines rLines2 ++ "\n") ++
              printFooter env.footerDate) := by
  have hw2 : (env.withRange iterMarkets iterReddit).fetchData weatherUrl =
      env.fetchData weatherUrl := rfl
  have hs2 : stocksStage (env.withRange iterMarkets iterReddit) = stocksStage env := rfl
  have hn2 : newsStage (env.withRange iterMarkets iterReddit) = newsStage env := rfl
  have hr2 : redditStage (env.withRange iterMarkets iterReddit) = redditStage env := rfl
  cases hw : env.fetchData weatherUrl with
  | none =>
    have e1 : main env = ⟨[Req.weather],
        Outcome.stopped (Stop.aborted "Unable to retrieve weather data\n")⟩ := by
      simp [main, hw]
    have e2 : main (env.withRange iterMarkets iterReddit) = ⟨[Req.weather],
        Outcome.stopped (Stop.aborted "Unable to retrieve weather data\n")⟩ := by
      simp [main, hw2, hw]
    rw [e1, e2]
    exact ⟨rfl, fun _ h => h, fun r h => by cases h⟩
  | some w =>
    rcases hs : stocksStage env with ⟨t1, stop | sd⟩
    · have e1 : main env = ⟨Req.weather :: t1, Outcome.stopped stop⟩ := by
        simp [main, hw, hs]
      have e2 : main (env.withRange iterMarkets iterReddit) =
          ⟨Req.weather :: t1, Outcome.stopped stop⟩ := by
        simp [main, hw2, hw, hs2, hs]
      rw [e1, e2]
      exact ⟨rfl, fun _ h => h, fun r h => by cases h⟩
    rcases hn : newsStage env with ⟨t2, stop | nd⟩
    · have e1 : main env = ⟨Req.weather :: (t1 ++ t2), Outcome.stopped stop⟩ := by
        simp [main, hw, hs, hn]
      have e2 : main (env.withRange iterMarkets iterReddit) =
          ⟨Req.weather :: (t1 ++ t2), Outcome.stopped stop⟩ := by
        simp [main, hw2, hw, hs2, hs, hn2, hn]
      rw [e1, e2]
      exact ⟨rfl, fun _ h => h, fun r h => by cases h⟩
    rcases hr : redditStage env with ⟨t3, stop | rd⟩
    · have e1 : main env = ⟨Req.weather :: (t1 ++ t2 ++ t3), Outcome.stopped stop⟩ := by
        simp [main, hw, hs, hn, hr]
      have e2 : main (env.withRange iterMarkets iterReddit) =
          ⟨Req.weather :: (t1 ++ t2 ++ t3), Outcome.stopped stop⟩ := by
        simp [main, hw2, hw, hs2, hs, hn2, hn, hr2, hr]
      rw [e1, e2]
      exact ⟨rfl, fun _ h => h, fun r h => by cases h⟩
    cases ha : assemble env w sd nd rd with
    | none =>
      have ha2 := assemble_none_perm env iterMarkets iterReddit hM hR hM2 hR2 w sd nd rd ha
      have e1 : main env = ⟨Req.weather :: (t1 ++ t2 ++ t3), Outcome.stopped Stop.crashed⟩ := by
        simp [main, hw, hs, hn, hr, ha]
      have e2 : main (env.withRange iterMarkets iterReddit) =
          ⟨Req.weather :: (t1 ++ t2 ++ t3), Outcome.stopped Stop.crashed⟩ := by
        simp [main, hw2, hw, hs2, hs, hn2, hn, hr2, hr, ha2]
      rw [e1, e2]
      exact ⟨rfl, fun _ h => h, fun r h => by cases h⟩
    | some report =>
      obtain ⟨weather, news, mLines, mLines2, rLines, rLines2, hpw, hpn, hmt, hmt2, hrt, hrt2,
        hmp, hrp, hrep, ha2⟩ :=
        assemble_perm env iterMarkets iterReddit hM hR hM2 hR2 w sd nd rd report ha
      have e1 : main env = ⟨Req.weather :: (t1 ++ t2 ++ t3), Outcome.printed report⟩ := by
        simp [main, hw, hs, hn, hr, ha]
      have e2 : main (env.withRange iterMarkets iterReddit) =
          ⟨Req.weather :: (t1 ++ t2 ++ t3),
            Outcome.printed (printHeader env.headerDate ++ "\n" ++ (weather ++ "\n") ++
              (if sd.length > 0 then "MARKETS\n\n" ++ joinLines mLines2 ++ "\n" else "") ++
              news ++ ("REDDIT\n\n" ++ joinLines rLines2 ++ "\n") ++
              printFooter env.footerDate)⟩ := by
        simp [main, hw2, hw, hs2, hs, hn2, hn, hr2, hr, ha2]
      rw [e1, e2]
      refine ⟨rfl, ?_, ?_⟩
      · intro _ h
        cases h
      intro r h
      simp only [Outcome.printed.injEq] at h
      subst h
      exact ⟨w, sd, nd, rd, weather, news, mLines, mLines2, rLines, rLines2, rfl, rfl, rfl, rfl,
        hpw, hpn, hmt, hmt2, hrt, hrt2, hmp, hrp, hrep, rfl⟩

set_option maxRecDepth 100000 in
/-- C8 as amended, a concrete run: the report of the sample environment. -/
theorem block_separation_witness :
    (main sampleEnv).outcome = Outcome.printed sampleReport ∧
    ∃ weatherData stockData newsData redditData weather markets news reddit,
      sampleEnv.fetchData weatherUrl = some weatherData ∧
      (stocksStage sampleEnv).2 = Except.ok stockData ∧
      (newsStage sampleEnv).2 = Except.ok newsData ∧
      (redditStage sampleEnv).2 = Except.ok redditData ∧
      printWeather sampleEnv.fmtFloat weatherData = some weather ∧
      marketsPart sampleEnv stockData = some markets ∧
      newsPart newsData = some news ∧
      printReddit sampleEnv.rangeReddit redditData = some reddit ∧
      sampleReport = printHeader sampleEnv.headerDate ++ "\n" ++ (weather ++ "\n") ++ markets ++
        news ++ (reddit ++ "\n") ++ printFooter sampleEnv.footerDate ∧
      trailingNewlines (printHeader sampleEnv.headerDate ++ "\n") = 2 ∧
      trailingNewlines (weather ++ "\n") = 3 ∧
      (markets = "" ∨ trailingNewlines markets = 3) ∧
      (news = "" ∨ 3 ≤ trailingNewlines news) ∧
      trailingNewlines (reddit ++ "\n") = 3 ∧
      BlankLinesBetween 1 (printHeader sampleEnv.headerDate ++ "\n") (weather ++ "\n") ∧
      BlankLinesBetween 2 (weather ++ "\n") (markets ++ news ++ (reddit ++ "\n")) ∧
      (markets = "" ∨ BlankLinesBetween 2 markets (news ++ (reddit ++ "\n"))) ∧
      (news = "" ∨ (EndsWithAtLeast news 3 ∧ StartsLine (reddit ++ "\n"))) ∧
      BlankLinesBetween 2 (reddit ++ "\n") (printFooter sampleEnv.footerDate) :=
  ⟨by decide, block_separation sampleEnv sampleReport (by decide)⟩

/-- C9 as amended, a concrete pair of runs: the sample environment, and the
same with `stockData` walked back to front. -/
theorem report_fixed_up_to_map_order_witness :
    (main (sampleEnv.withRange (fun l => l.reverse) (fun l => l))).fetched =
        (main sampleEnv).fetched ∧
      (∀ stop, (main sampleEnv).outcome = Outcome.stopped stop →
        (main (sampleEnv.withRange (fun l => l.reverse) (fun l => l))).outcome =
          Outcome.stopped stop) ∧
      ∀ r, (main sampleEnv).outcome = Outcome.printed r →
        ∃ weatherData stockData newsData redditData weather news mLines mLines2 rLines rLines2,
          sampleEnv.fetchData weatherUrl = some weatherData ∧
          (stocksStage sampleEnv).2 = Except.ok stockData ∧
          (newsStage sampleEnv).2 = Except.ok newsData ∧
          (redditStage sampleEnv).2 = Except.ok redditData ∧
          printWeather sampleEnv.fmtFloat weatherData = some weather ∧
          newsPart newsData = some news ∧
          traverse (marketLine sampleEnv.fmtFloat) (sampleEnv.rangeMarkets stockData) =
            some mLines ∧
          traverse (marketLine sampleEnv.fmtFloat) ((fun l => l.reverse) stockData) = some mLines2 ∧
          traverse redditLine (sampleEnv.rangeReddit redditData) = some rLines ∧
          traverse redditLine ((fun l => l) redditData) = some rLines2 ∧
          mLines.Perm mLines2 ∧ rLines.Perm rLines2 ∧
          r = printHeader sampleEnv.headerDate ++ "\n" ++ (weather ++ "\n") ++
              (if stockData.length > 0 then "MARKETS\n\n" ++ joinLines mLines ++ "\n" else "") ++
              news ++ ("REDDIT\n\n" ++ joinLines rLines ++ "\n") ++
              printFooter sampleEnv.footerDate ∧
          (main (sampleEnv.withRange (fun l => l.reverse) (fun l => l))).outcome =
            Outcome.printed (printHeader sampleEnv.headerDate ++ "\n" ++ (weather ++ "\n") ++
              (if stockData.length > 0 then "MARKETS\n\n" ++ joinLines mLines2 ++ "\n" else "") ++
              news ++ ("REDDIT\n\n" ++ joinLines rLines2 ++ "\n") ++
              printFooter sampleEnv.footerDate) :=
  report_fixed_up_to_map_order sampleEnv (fun l => l.reverse) (fun l => l)
    (fun l => List.Perm.refl l) (fun l => List.Perm.refl l)
    (fun l => List.reverse_perm l) (fun l => List.Perm.refl l)

end DailyNews
